import Mathlib

/-!
Verification of the rsjvm execution core: a shallow embedding of the
interpreter, frame/thread/heap runtime and metaspace of the repository
(src/interpreter/mod.rs, src/runtime/{frame,thread,heap,metaspace}.rs,
src/classfile/{mod,constant_pool,attribute}.rs), together with theorems
settling the specification claims about them.

Modelling conventions:
* Rust machine integers are modelled as Nat / Int with explicit range
  handling; `u8` code bytes are Nat values below 256.
* Rust `Vec` used as a stack (operand stack, frame stack, free list) is
  modelled as a Lean `List` with its head at the Vec's end, so push is cons
  and pop takes the head.
* Rust `HashMap` is modelled as an association list whose insert replaces
  the binding of an existing key; iteration order plays no role in the
  modelled code.
* `anyhow` string errors become the constructors of `JvmError`; Rust panics
  (out-of-bounds `Vec` indexing, arithmetic overflow) are modelled as the
  two dedicated panic constructors, distinct from every `anyhow` error.
* `println!` writes to the process stdout, which is external I/O; the
  INVOKEVIRTUAL println intrinsic is modelled by its stack and PC effects
  only.
-/

set_option maxHeartbeats 1000000

namespace RsJvm

/-- JVM runtime value (src/runtime/frame.rs, `enum JvmValue`). Constructor
names carry a `V` suffix where they would clash with Lean builtin types.
Float and Double payloads are kept as raw bit patterns; no instruction
modelled from the source computes with them. -/
inductive JvmValue where
  | IntV (v : Int)
  | LongV (v : Int)
  | FloatV (bits : Nat)
  | DoubleV (bits : Nat)
  | Reference (r : Option Nat)
deriving DecidableEq, Repr, Inhabited

/-- Failure outcomes. The Rust code raises `anyhow` string errors; each
distinct message family is a constructor here. `panicIndexOutOfBounds` and
`panicArithmeticOverflow` model Rust panics (aborts), which are not
`anyhow` errors in the source but likewise terminate the invocation. -/
inductive JvmError where
  | pcOutOfBounds (pc len : Nat)
  | divisionByZero
  | classNotLoaded (name : String)
  | methodNotFound (cls key : String)
  | classNotFound (name : String)
  | operandStackEmpty
  | threadStackEmpty
  | expectedInt
  | expectedReference
  | nullReference
  | invalidRef (i : Nat)
  | fieldNotFound
  | localOutOfBounds (i : Nat)
  | missingReturnAddress
  | unknownOpcode (op pc : Nat)
  | invokevirtualUnsupported (cls name : String)
  | badCpIndex (i : Nat)
  | cpEntryNone (i : Nat)
  | wrongEntryKind
  | noCodeAttr
  | badFormat
  | panicIndexOutOfBounds
  | panicArithmeticOverflow
deriving DecidableEq, Repr

/-- Smallest i32 value. -/
def i32min : Int := -(2 ^ 31)

/-- Largest i32 value. -/
def i32max : Int := 2 ^ 31 - 1

/-- Whether an integer is representable as an i32. -/
def fitsI32 (v : Int) : Bool := i32min ≤ v && v ≤ i32max

/-- Rust `i32` addition `v1 + v2` as written in the IADD arm: overflow is a
panic under the default (debug) profile, and in no profile is it the JVM
wrap-then-continue. -/
def rustAddI32 (a b : Int) : Except JvmError Int :=
  if fitsI32 (a + b) then .ok (a + b) else .error .panicArithmeticOverflow

/-- Rust `i32` subtraction, same overflow behaviour as `rustAddI32`. -/
def rustSubI32 (a b : Int) : Except JvmError Int :=
  if fitsI32 (a - b) then .ok (a - b) else .error .panicArithmeticOverflow

/-- Rust `i32` multiplication, same overflow behaviour as `rustAddI32`. -/
def rustMulI32 (a b : Int) : Except JvmError Int :=
  if fitsI32 (a * b) then .ok (a * b) else .error .panicArithmeticOverflow

/-- Rust `i32` division `v1 / v2` (truncating towards zero): panics on
overflow, i.e. exactly when v1 = i32min and v2 = -1, in every build
profile. Division by zero is checked by the caller (IDIV arm) before this
point. -/
def rustDivI32 (a b : Int) : Except JvmError Int :=
  if a = i32min && b = -1 then .error .panicArithmeticOverflow else .ok (a.tdiv b)

/-- One code byte read `as i8` then `as i32` (the BIPUSH operand). Code
bytes are below 256. -/
def i8OfByte (b : Nat) : Int := if b < 128 then (b : Int) else (b : Int) - 256

/-- `i16::from_be_bytes([b1, b2])` widened `as i32`. -/
def i16OfBytes (b1 b2 : Nat) : Int :=
  let v : Nat := b1 * 256 + b2
  if v < 32768 then (v : Int) else (v : Int) - 65536

/-- `u16::from_be_bytes([b1, b2])`. -/
def u16OfBytes (b1 b2 : Nat) : Nat := b1 * 256 + b2

/-- `usize as i32` truncating cast of a PC value (never panics). -/
def usizeAsI32 (n : Nat) : Int :=
  let m : Nat := n % 2 ^ 32
  if m < 2 ^ 31 then (m : Int) else (m : Int) - 2 ^ 32

/-- An `i32` value cast `as usize` on the 64-bit target: sign-extend to 64
bits and reinterpret, so negative values become astronomically large. -/
def i32AsUsize (v : Int) : Nat := (v % (2 : Int) ^ 64).toNat

/-- Branch-target computation `(pc as i32 + offset as i32) as usize` shared
by every branch arm of the interpreter. -/
def branchTarget (pc : Nat) (off : Int) : Except JvmError Nat := do
  let t ← rustAddI32 (usizeAsI32 pc) off
  .ok (i32AsUsize t)

/-- Association-list model of a Rust `HashMap` lookup. -/
def lookupA {κ α : Type} [DecidableEq κ] : List (κ × α) → κ → Option α
  | [], _ => none
  | (k', v) :: rest, k => if k' = k then some v else lookupA rest k

/-- Association-list model of a Rust `HashMap` insert: replaces the binding
of an existing key, otherwise appends. -/
def insertA {κ α : Type} [DecidableEq κ] : List (κ × α) → κ → α → List (κ × α)
  | [], k, v => [(k, v)]
  | (k', v') :: rest, k, v =>
    if k' = k then (k, v) :: rest else (k', v') :: insertA rest k v

/-- Per-invocation activation record (src/runtime/frame.rs, `struct
Frame`). The operand stack keeps its top element first. -/
structure Frame where
  local_vars : List JvmValue
  operand_stack : List JvmValue
  class_name : String
  return_address : Option Nat
  code : List Nat
  max_stack : Nat
  max_locals : Nat
deriving DecidableEq, Repr

namespace Frame

/-- `Frame::new_with_context`: locals pre-zeroed to Int(0), empty operand
stack (`Vec::with_capacity(max_stack)` reserves capacity only). -/
def new_with_context (max_locals max_stack : Nat) (class_name : String)
    (code : List Nat) (return_address : Option Nat) : Frame :=
  { local_vars := List.replicate max_locals (.IntV 0)
    operand_stack := []
    class_name := class_name
    return_address := return_address
    code := code
    max_stack := max_stack
    max_locals := max_locals }

/-- `Frame::get_local`: bounds-checked read of a local variable. -/
def get_local (f : Frame) (index : Nat) : Except JvmError JvmValue :=
  match f.local_vars.get? index with
  | some v => .ok v
  | none => .error (.localOutOfBounds index)

/-- `Frame::set_local`: bounds-checked write of a local variable. -/
def set_local (f : Frame) (index : Nat) (value : JvmValue) : Except JvmError Frame :=
  if f.local_vars.length ≤ index then .error (.localOutOfBounds index)
  else .ok { f with local_vars := f.local_vars.set index value }

/-- `Frame::push`: unconditional push onto the operand stack; there is no
comparison against `max_stack` in the source. -/
def push (f : Frame) (value : JvmValue) : Frame :=
  { f with operand_stack := value :: f.operand_stack }

/-- `Frame::pop`: pop the operand-stack top or fail. -/
def pop (f : Frame) : Except JvmError (JvmValue × Frame) :=
  match f.operand_stack with
  | [] => .error .operandStackEmpty
  | v :: rest => .ok (v, { f with operand_stack := rest })

/-- `Frame::pop_int`: pop and require an Int value. -/
def pop_int (f : Frame) : Except JvmError (Int × Frame) :=
  match f.pop with
  | .error e => .error e
  | .ok (.IntV v, f') => .ok (v, f')
  | .ok _ => .error .expectedInt

/-- `Frame::pop_ref`: pop and require a Reference value. -/
def pop_ref (f : Frame) : Except JvmError (Option Nat × Frame) :=
  match f.pop with
  | .error e => .error e
  | .ok (.Reference r, f') => .ok (r, f')
  | .ok _ => .error .expectedReference

/-- `Frame::stack_size`: the operand-stack depth. -/
def stack_size (f : Frame) : Nat := f.operand_stack.length

/-- The argument-popping loop of the invoke arms (`for _ in 0..arg_count
args.push(pop()?)`): returns the popped values in pop order. -/
def popN : Nat → Frame → Except JvmError (List JvmValue × Frame)
  | 0, f => .ok ([], f)
  | n + 1, f =>
    match f.pop with
    | .error e => .error e
    | .ok (v, f') =>
      match popN n f' with
      | .error e => .error e
      | .ok (vs, f'') => .ok (v :: vs, f'')

/-- The argument-writing loop of the invoke arms (`for (i, arg) in
args.into_iter().enumerate() set_local(start + i, arg)?`). -/
def setLocalsFrom : List JvmValue → Nat → Frame → Except JvmError Frame
  | [], _, f => .ok f
  | a :: rest, i, f =>
    match f.set_local i a with
    | .error e => .error e
    | .ok f' => setLocalsFrom rest (i + 1) f'

end Frame

/-- Single JVM thread (src/runtime/thread.rs, `struct JvmThread`): the
frame stack, top frame first. -/
structure JvmThread where
  stack : List Frame
  /-- Modelled from the spec: the thread PC field (spec sections 3 and 4.4:
  a PC addressing the top frame's code, read and written by the
  interpreter) is used throughout src/interpreter/mod.rs but the copy of
  thread.rs under src lacks its declaration. -/
  pc : Nat
deriving DecidableEq, Repr

namespace JvmThread

/-- `JvmThread::new`. -/
def new : JvmThread := { stack := [], pc := 0 }

/-- `JvmThread::push_frame`. -/
def push_frame (t : JvmThread) (frame : Frame) : JvmThread :=
  { t with stack := frame :: t.stack }

/-- `JvmThread::pop_frame`: pop the top frame or fail. -/
def pop_frame (t : JvmThread) : Except JvmError (Frame × JvmThread) :=
  match t.stack with
  | [] => .error .threadStackEmpty
  | f :: rest => .ok (f, { t with stack := rest })

/-- `JvmThread::current_frame`. -/
def current_frame (t : JvmThread) : Except JvmError Frame :=
  match t.stack with
  | [] => .error .threadStackEmpty
  | f :: _ => .ok f

/-- `JvmThread::stack_depth`. -/
def stack_depth (t : JvmThread) : Nat := t.stack.length

/-- Modelled from the spec: `current_code` (spec section 4.4, the bytecode
of the top frame) is called by the interpreter loop but missing from the
copy of thread.rs under src. -/
def current_code (t : JvmThread) : Except JvmError (List Nat) :=
  match t.stack with
  | [] => .error .threadStackEmpty
  | f :: _ => .ok f.code

end JvmThread

/-- Heap object (src/runtime/heap.rs, `struct Object`). -/
structure Object where
  class_name : String
  fields : List (String × JvmValue)
deriving DecidableEq, Repr

/-- Slab heap (src/runtime/heap.rs, `struct Heap`): indexed optional slots
plus a free list used as a stack (top first). -/
structure Heap where
  objects : List (Option Object)
  free_list : List Nat
deriving DecidableEq, Repr

namespace Heap

/-- `Heap::new`. -/
def new : Heap := { objects := [], free_list := [] }

/-- `Heap::allocate`: place a fresh empty object at a free-list index if
any, else append; return the slot index. -/
def allocate (h : Heap) (class_name : String) : Nat × Heap :=
  let obj : Object := { class_name := class_name, fields := [] }
  match h.free_list with
  | index :: rest =>
    (index, { objects := h.objects.set index (some obj), free_list := rest })
  | [] =>
    (h.objects.length, { objects := h.objects ++ [some obj], free_list := [] })

/-- `Heap::get`: a live object at the index, or an invalid-reference
error. -/
def get (h : Heap) (index : Nat) : Except JvmError Object :=
  match h.objects.get? index with
  | some (some o) => .ok o
  | _ => .error (.invalidRef index)

/-- `Heap::set_field`: overwrite or insert one field of a live object. -/
def set_field (h : Heap) (index : Nat) (name : String) (value : JvmValue) :
    Except JvmError Heap :=
  match h.get index with
  | .error e => .error e
  | .ok o =>
    .ok { h with
      objects := h.objects.set index (some { o with fields := insertA o.fields name value }) }

/-- `Heap::get_field`: read one field of a live object. -/
def get_field (h : Heap) (index : Nat) (name : String) : Except JvmError JvmValue :=
  match h.get index with
  | .error e => .error e
  | .ok o =>
    match lookupA o.fields name with
    | some v => .ok v
    | none => .error .fieldNotFound

/-- `Heap::free`: null the slot and push the index onto the free list. The
only check is that the index is within the slot vector; an already empty
slot is freed again without complaint. -/
def free (h : Heap) (index : Nat) : Except JvmError Heap :=
  if h.objects.length ≤ index then .error (.invalidRef index)
  else .ok { objects := h.objects.set index none, free_list := index :: h.free_list }

/-- `Heap::object_count`: number of live slots. -/
def object_count (h : Heap) : Nat := (h.objects.filter Option.isSome).length

end Heap

/-- Constant-pool entry (src/classfile/constant_pool.rs). Constructors
clashing with Lean names carry a `C` suffix. All u8/u16 payloads are
Nat. -/
inductive ConstantPoolEntry where
  | Utf8 (s : String)
  | IntegerC (v : Int)
  | FloatC (bits : Nat)
  | LongC (v : Int)
  | DoubleC (bits : Nat)
  | Class (name_index : Nat)
  | StringC (string_index : Nat)
  | FieldRef (class_index name_and_type_index : Nat)
  | MethodRef (class_index name_and_type_index : Nat)
  | InterfaceMethodRef (class_index name_and_type_index : Nat)
  | NameAndType (name_index descriptor_index : Nat)
  | MethodHandle (reference_kind reference_index : Nat)
  | MethodType (descriptor_index : Nat)
  | InvokeDynamic (bootstrap_method_attr_index name_and_type_index : Nat)
deriving DecidableEq, Repr

/-- Constant pool (src/classfile/constant_pool.rs, `struct ConstantPool`):
1-based indexed entries, slot 0 and the slot after a Long/Double are
None. -/
structure ConstantPool where
  entries : List (Option ConstantPoolEntry)
deriving DecidableEq, Repr

namespace ConstantPool

/-- `ConstantPool::get`: rejects index 0 and out-of-range indices, then a
None slot. -/
def get (cp : ConstantPool) (index : Nat) : Except JvmError ConstantPoolEntry :=
  if index = 0 || cp.entries.length ≤ index then .error (.badCpIndex index)
  else
    match cp.entries.get? index with
    | some (some e) => .ok e
    | _ => .error (.cpEntryNone index)

/-- `ConstantPool::get_utf8`. -/
def get_utf8 (cp : ConstantPool) (index : Nat) : Except JvmError String :=
  match cp.get index with
  | .error e => .error e
  | .ok (.Utf8 s) => .ok s
  | .ok _ => .error .wrongEntryKind

/-- `ConstantPool::get_class_name`: Class entry, then its Utf8 name. -/
def get_class_name (cp : ConstantPool) (index : Nat) : Except JvmError String :=
  match cp.get index with
  | .error e => .error e
  | .ok (.Class name_index) => cp.get_utf8 name_index
  | .ok _ => .error .wrongEntryKind

end ConstantPool

/-- Raw attribute (src/classfile/attribute.rs, `struct AttributeInfo`). -/
structure AttributeInfo where
  name_index : Nat
  info : List Nat
deriving DecidableEq, Repr

/-- Exception-table row of a Code attribute. -/
structure ExceptionHandler where
  start_pc : Nat
  end_pc : Nat
  handler_pc : Nat
  catch_type : Nat
deriving DecidableEq, Repr

/-- Parsed Code attribute (src/classfile/attribute.rs, `struct
CodeAttribute`). -/
structure CodeAttribute where
  max_stack : Nat
  max_locals : Nat
  code : List Nat
  exception_table : List ExceptionHandler
  attributes : List AttributeInfo
deriving DecidableEq, Repr

/-- Big-endian u16 cursor read; EOF is the `byteorder` read failure. -/
def readU16 (b : List Nat) (pos : Nat) : Except JvmError (Nat × Nat) :=
  match b.get? pos, b.get? (pos + 1) with
  | some b1, some b2 => .ok (b1 * 256 + b2, pos + 2)
  | _, _ => .error .badFormat

/-- Big-endian u32 cursor read. -/
def readU32 (b : List Nat) (pos : Nat) : Except JvmError (Nat × Nat) :=
  match b.get? pos, b.get? (pos + 1), b.get? (pos + 2), b.get? (pos + 3) with
  | some b1, some b2, some b3, some b4 =>
    .ok (((b1 * 256 + b2) * 256 + b3) * 256 + b4, pos + 4)
  | _, _, _, _ => .error .badFormat

/-- `read_exact` of n bytes from the cursor. -/
def readBytes (b : List Nat) (pos n : Nat) : Except JvmError (List Nat × Nat) :=
  if pos + n ≤ b.length then .ok ((b.drop pos).take n, pos + n) else .error .badFormat

/-- The exception-table reading loop of `parse_code_attribute`. -/
def readExceptionTable (b : List Nat) : Nat → Nat → Except JvmError (List ExceptionHandler × Nat)
  | 0, pos => .ok ([], pos)
  | n + 1, pos =>
    match readU16 b pos with
    | .error e => .error e
    | .ok (s, pos) =>
      match readU16 b pos with
      | .error e => .error e
      | .ok (e2, pos) =>
        match readU16 b pos with
        | .error e => .error e
        | .ok (hp, pos) =>
          match readU16 b pos with
          | .error e => .error e
          | .ok (c, pos) =>
            match readExceptionTable b n pos with
            | .error e => .error e
            | .ok (rest, pos) =>
              .ok ({ start_pc := s, end_pc := e2, handler_pc := hp, catch_type := c } :: rest, pos)

/-- The nested-attribute reading loop of `parse_code_attribute`. -/
def readAttributes (b : List Nat) : Nat → Nat → Except JvmError (List AttributeInfo × Nat)
  | 0, pos => .ok ([], pos)
  | n + 1, pos =>
    match readU16 b pos with
    | .error e => .error e
    | .ok (name_index, pos) =>
      match readU32 b pos with
      | .error e => .error e
      | .ok (length, pos) =>
        match readBytes b pos length with
        | .error e => .error e
        | .ok (info, pos) =>
          match readAttributes b n pos with
          | .error e => .error e
          | .ok (rest, pos) =>
            .ok ({ name_index := name_index, info := info } :: rest, pos)

/-- `AttributeInfo::parse_code_attribute`: cursor parse of the Code
attribute payload. -/
def AttributeInfo.parse_code_attribute (a : AttributeInfo) : Except JvmError CodeAttribute :=
  match readU16 a.info 0 with
  | .error e => .error e
  | .ok (max_stack, pos) =>
    match readU16 a.info pos with
    | .error e => .error e
    | .ok (max_locals, pos) =>
      match readU32 a.info pos with
      | .error e => .error e
      | .ok (code_length, pos) =>
        match readBytes a.info pos code_length with
        | .error e => .error e
        | .ok (code, pos) =>
          match readU16 a.info pos with
          | .error e => .error e
          | .ok (etl, pos) =>
            match readExceptionTable a.info etl pos with
            | .error e => .error e
            | .ok (exception_table, pos) =>
              match readU16 a.info pos with
              | .error e => .error e
              | .ok (ac, pos) =>
                match readAttributes a.info ac pos with
                | .error e => .error e
                | .ok (attributes, _) =>
                  .ok { max_stack := max_stack, max_locals := max_locals, code := code,
                        exception_table := exception_table, attributes := attributes }

/-- Field entry of a class file (src/classfile/mod.rs, `struct
FieldInfo`). -/
structure FieldInfo where
  access_flags : Nat
  name_index : Nat
  descriptor_index : Nat
  attributes : List AttributeInfo
deriving DecidableEq, Repr

/-- Method entry of a class file (src/classfile/mod.rs, `struct
MethodInfo`). -/
structure MethodInfo where
  access_flags : Nat
  name_index : Nat
  descriptor_index : Nat
  attributes : List AttributeInfo
deriving DecidableEq, Repr

/-- Decoded class file (src/classfile/mod.rs, `struct ClassFile`). -/
structure ClassFile where
  magic : Nat
  minor_version : Nat
  major_version : Nat
  constant_pool : ConstantPool
  access_flags : Nat
  this_class : Nat
  super_class : Nat
  interfaces : List Nat
  fields : List FieldInfo
  methods : List MethodInfo
  attributes : List AttributeInfo
deriving DecidableEq, Repr

namespace ClassFile

/-- `ClassFile::get_class_name`: the internal name of this_class. -/
def get_class_name (cf : ClassFile) : Except JvmError String :=
  cf.constant_pool.get_class_name cf.this_class

/-- `ClassFile::get_super_class_name`. -/
def get_super_class_name (cf : ClassFile) : Except JvmError String :=
  if cf.super_class = 0 then .ok "java/lang/Object"
  else cf.constant_pool.get_class_name cf.super_class

end ClassFile

/-- `ACC_STATIC`. -/
def acc_static : Nat := 8

/-- `ACC_NATIVE`. -/
def acc_native : Nat := 256

/-- `ACC_ABSTRACT`. -/
def acc_abstract : Nat := 1024

/-- Resolved method reference (src/runtime/metaspace.rs, `struct
ResolvedMethodRef`). -/
structure ResolvedMethodRef where
  class_name : String
  method_name : String
  descriptor : String
deriving DecidableEq, Repr

/-- Resolved field reference (src/runtime/metaspace.rs, `struct
ResolvedFieldRef`). -/
structure ResolvedFieldRef where
  class_name : String
  field_name : String
  descriptor : String
deriving DecidableEq, Repr

/-- Method metadata (src/runtime/metaspace.rs, `struct MethodMetadata`). -/
structure MethodMetadata where
  name : String
  descriptor : String
  access_flags : Nat
  max_stack : Nat
  max_locals : Nat
  code : List Nat
  is_static : Bool
  is_native : Bool
  is_abstract : Bool
deriving DecidableEq, Repr

/-- Field metadata (src/runtime/metaspace.rs, `struct FieldMetadata`). -/
structure FieldMetadata where
  name : String
  descriptor : String
  access_flags : Nat
  is_static : Bool
deriving DecidableEq, Repr

/-- Class lifecycle state. -/
inductive ClassState where
  | Loaded
  | Linked
  | Initializing
  | Initialized
deriving DecidableEq, Repr

/-- Per-class resolution cache (src/runtime/metaspace.rs, `struct
RuntimeConstantPool`). -/
structure RuntimeConstantPool where
  resolved_methods : List (Nat × ResolvedMethodRef)
  resolved_fields : List (Nat × ResolvedFieldRef)
  resolved_classes : List (Nat × String)
deriving DecidableEq, Repr

/-- `RuntimeConstantPool::new`. -/
def RuntimeConstantPool.new : RuntimeConstantPool :=
  { resolved_methods := [], resolved_fields := [], resolved_classes := [] }

/-- Runtime class representation (src/runtime/metaspace.rs, `struct
ClassMetadata`). -/
structure ClassMetadata where
  name : String
  super_class : Option String
  interfaces : List String
  access_flags : Nat
  constant_pool : List (Option ConstantPoolEntry)
  runtime_pool : RuntimeConstantPool
  methods : List (String × MethodMetadata)
  fields : List (String × FieldMetadata)
  static_fields : List (String × JvmValue)
  state : ClassState
deriving DecidableEq, Repr

namespace ClassMetadata

/-- `ClassMetadata::resolve_name_and_type`: dereference a NameAndType
entry and its two Utf8 children. Unlike `ConstantPool::get`, this indexes
the raw entry vector directly (no index-0 rejection). -/
def resolve_name_and_type (cm : ClassMetadata) (index : Nat) :
    Except JvmError (String × String) :=
  match cm.constant_pool.get? index with
  | none => .error (.badCpIndex index)
  | some none => .error (.cpEntryNone index)
  | some (some (.NameAndType name_index descriptor_index)) =>
    match cm.constant_pool.get? name_index with
    | some (some (.Utf8 name)) =>
      match cm.constant_pool.get? descriptor_index with
      | some (some (.Utf8 descriptor)) => .ok (name, descriptor)
      | _ => .error .wrongEntryKind
    | _ => .error .wrongEntryKind
  | some (some _) => .error .wrongEntryKind

/-- `ClassMetadata::resolve_class_ref`: memoized Class → Utf8 resolution;
returns the name and the metadata with the updated cache. -/
def resolve_class_ref (cm : ClassMetadata) (index : Nat) :
    Except JvmError (String × ClassMetadata) :=
  match lookupA cm.runtime_pool.resolved_classes index with
  | some class_name => .ok (class_name, cm)
  | none =>
    match cm.constant_pool.get? index with
    | none => .error (.badCpIndex index)
    | some none => .error (.cpEntryNone index)
    | some (some (.Class name_index)) =>
      match cm.constant_pool.get? name_index with
      | none => .error (.badCpIndex name_index)
      | some none => .error (.cpEntryNone name_index)
      | some (some (.Utf8 name)) =>
        .ok (name,
          { cm with runtime_pool :=
            { cm.runtime_pool with
              resolved_classes := insertA cm.runtime_pool.resolved_classes index name } })
      | some (some _) => .error .wrongEntryKind
    | some (some _) => .error .wrongEntryKind

/-- `ClassMetadata::resolve_method_ref`: memoized method-reference
resolution; accepts MethodRef or InterfaceMethodRef. -/
def resolve_method_ref (cm : ClassMetadata) (index : Nat) :
    Except JvmError (ResolvedMethodRef × ClassMetadata) :=
  match lookupA cm.runtime_pool.resolved_methods index with
  | some resolved => .ok (resolved, cm)
  | none =>
    match cm.constant_pool.get? index with
    | none => .error (.badCpIndex index)
    | some none => .error (.cpEntryNone index)
    | some (some entry) =>
      match entry with
      | .MethodRef class_index name_and_type_index =>
        resolve_method_ref_tail cm index class_index name_and_type_index
      | .InterfaceMethodRef class_index name_and_type_index =>
        resolve_method_ref_tail cm index class_index name_and_type_index
      | _ => .error .wrongEntryKind
where
  /-- Shared tail of the MethodRef / InterfaceMethodRef cases. -/
  resolve_method_ref_tail (cm : ClassMetadata) (index class_index name_and_type_index : Nat) :
      Except JvmError (ResolvedMethodRef × ClassMetadata) :=
    match cm.resolve_class_ref class_index with
    | .error e => .error e
    | .ok (class_name, cm) =>
      match cm.resolve_name_and_type name_and_type_index with
      | .error e => .error e
      | .ok (method_name, descriptor) =>
        let resolved : ResolvedMethodRef :=
          { class_name := class_name, method_name := method_name, descriptor := descriptor }
        .ok (resolved,
          { cm with runtime_pool :=
            { cm.runtime_pool with
              resolved_methods := insertA cm.runtime_pool.resolved_methods index resolved } })

/-- `ClassMetadata::resolve_field_ref`: memoized field-reference
resolution; requires a FieldRef entry. -/
def resolve_field_ref (cm : ClassMetadata) (index : Nat) :
    Except JvmError (ResolvedFieldRef × ClassMetadata) :=
  match lookupA cm.runtime_pool.resolved_fields index with
  | some resolved => .ok (resolved, cm)
  | none =>
    match cm.constant_pool.get? index with
    | none => .error (.badCpIndex index)
    | some none => .error (.cpEntryNone index)
    | some (some (.FieldRef class_index name_and_type_index)) =>
      match cm.resolve_class_ref class_index with
      | .error e => .error e
      | .ok (class_name, cm) =>
        match cm.resolve_name_and_type name_and_type_index with
        | .error e => .error e
        | .ok (field_name, descriptor) =>
          let resolved : ResolvedFieldRef :=
            { class_name := class_name, field_name := field_name, descriptor := descriptor }
          .ok (resolved,
            { cm with runtime_pool :=
              { cm.runtime_pool with
                resolved_fields := insertA cm.runtime_pool.resolved_fields index resolved } })
    | some (some _) => .error .wrongEntryKind

end ClassMetadata

/-- Metaspace (src/runtime/metaspace.rs, `struct Metaspace`): internal
class name → class metadata. -/
structure Metaspace where
  classes : List (String × ClassMetadata)
deriving DecidableEq, Repr

namespace Metaspace

/-- `Metaspace::new`. -/
def new : Metaspace := { classes := [] }

/-- `Metaspace::get_class`. -/
def get_class (ms : Metaspace) (class_name : String) : Except JvmError ClassMetadata :=
  match lookupA ms.classes class_name with
  | some cm => .ok cm
  | none => .error (.classNotFound class_name)

/-- `Metaspace::is_class_loaded`. -/
def is_class_loaded (ms : Metaspace) (class_name : String) : Bool :=
  (lookupA ms.classes class_name).isSome

/-- Write-back of a mutation performed through
`Metaspace::get_class_mut`. -/
def put_class (ms : Metaspace) (class_name : String) (cm : ClassMetadata) : Metaspace :=
  { classes := insertA ms.classes class_name cm }

/-- `Metaspace::loaded_classes`. -/
def loaded_classes (ms : Metaspace) : List String := ms.classes.map Prod.fst

/-- `Metaspace::extract_code_from_method`, attribute loop: the first
attribute named Code is parsed; a Utf8 failure inside the loop aborts. -/
def extract_code_loop (cf : ClassFile) :
    List AttributeInfo → Except JvmError (Option (Nat × Nat × List Nat))
  | [] => .ok none
  | attr :: rest =>
    match cf.constant_pool.get_utf8 attr.name_index with
    | .error e => .error e
    | .ok attr_name =>
      if attr_name = "Code" then
        match attr.parse_code_attribute with
        | .error e => .error e
        | .ok code_attr => .ok (some (code_attr.max_stack, code_attr.max_locals, code_attr.code))
      else extract_code_loop cf rest

/-- `Metaspace::extract_code_from_method`: fails when no Code attribute is
present (after re-reading the two Utf8 names for the error message). -/
def extract_code_from_method (method : MethodInfo) (cf : ClassFile) :
    Except JvmError (Nat × Nat × List Nat) :=
  match extract_code_loop cf method.attributes with
  | .error e => .error e
  | .ok (some t) => .ok t
  | .ok none =>
    match cf.constant_pool.get_utf8 method.name_index with
    | .error e => .error e
    | .ok _ =>
      match cf.constant_pool.get_utf8 method.descriptor_index with
      | .error e => .error e
      | .ok _ => .error .noCodeAttr

/-- `Metaspace::parse_methods`: builds the name:descriptor keyed method
map. -/
def parse_methods_loop (cf : ClassFile) :
    List MethodInfo → List (String × MethodMetadata) →
    Except JvmError (List (String × MethodMetadata))
  | [], acc => .ok acc
  | method :: rest, acc =>
    match cf.constant_pool.get_utf8 method.name_index with
    | .error e => .error e
    | .ok name =>
      match cf.constant_pool.get_utf8 method.descriptor_index with
      | .error e => .error e
      | .ok descriptor =>
        let is_static := method.access_flags &&& acc_static != 0
        let is_native := method.access_flags &&& acc_native != 0
        let is_abstract := method.access_flags &&& acc_abstract != 0
        let codeE : Except JvmError (Nat × Nat × List Nat) :=
          if is_native || is_abstract then .ok (0, 0, [])
          else extract_code_from_method method cf
        match codeE with
        | .error e => .error e
        | .ok (max_stack, max_locals, code) =>
          let mm : MethodMetadata :=
            { name := name, descriptor := descriptor, access_flags := method.access_flags,
              max_stack := max_stack, max_locals := max_locals, code := code,
              is_static := is_static, is_native := is_native, is_abstract := is_abstract }
          parse_methods_loop cf rest (insertA acc (name ++ ":" ++ descriptor) mm)

/-- `Metaspace::parse_methods` entry. -/
def parse_methods (cf : ClassFile) : Except JvmError (List (String × MethodMetadata)) :=
  parse_methods_loop cf cf.methods []

/-- `Metaspace::parse_fields`: builds the name:descriptor keyed field
map. -/
def parse_fields_loop (cf : ClassFile) :
    List FieldInfo → List (String × FieldMetadata) →
    Except JvmError (List (String × FieldMetadata))
  | [], acc => .ok acc
  | field :: rest, acc =>
    match cf.constant_pool.get_utf8 field.name_index with
    | .error e => .error e
    | .ok name =>
      match cf.constant_pool.get_utf8 field.descriptor_index with
      | .error e => .error e
      | .ok descriptor =>
        let fm : FieldMetadata :=
          { name := name, descriptor := descriptor, access_flags := field.access_flags,
            is_static := field.access_flags &&& acc_static != 0 }
        parse_fields_loop cf rest (insertA acc (name ++ ":" ++ descriptor) fm)

/-- `Metaspace::parse_fields` entry. -/
def parse_fields (cf : ClassFile) : Except JvmError (List (String × FieldMetadata)) :=
  parse_fields_loop cf cf.fields []

/-- The interface-name resolution loop of `Metaspace::load_class`. -/
def interface_names (cf : ClassFile) : List Nat → Except JvmError (List String)
  | [] => .ok []
  | i :: rest =>
    match cf.constant_pool.get_class_name i with
    | .error e => .error e
    | .ok n =>
      match interface_names cf rest with
      | .error e => .error e
      | .ok ns => .ok (n :: ns)

/-- `Metaspace::load_class`: skip if the internal name is already loaded;
otherwise translate the class file into metadata and insert it. -/
def load_class (ms : Metaspace) (class_file : ClassFile) : Except JvmError Metaspace :=
  match class_file.get_class_name with
  | .error e => .error e
  | .ok class_name =>
    if (lookupA ms.classes class_name).isSome then .ok ms
    else
      match
        (if class_file.super_class = 0 then .ok none
         else
           match class_file.get_super_class_name with
           | .error e => .error e
           | .ok n => .ok (some n) : Except JvmError (Option String)) with
      | .error e => .error e
      | .ok super_class =>
        match interface_names class_file class_file.interfaces with
        | .error e => .error e
        | .ok interfaces =>
          match parse_methods class_file with
          | .error e => .error e
          | .ok methods =>
            match parse_fields class_file with
            | .error e => .error e
            | .ok fields =>
              let metadata : ClassMetadata :=
                { name := class_name, super_class := super_class, interfaces := interfaces,
                  access_flags := class_file.access_flags,
                  constant_pool := class_file.constant_pool.entries,
                  runtime_pool := RuntimeConstantPool.new,
                  methods := methods, fields := fields, static_fields := [],
                  state := .Loaded }
              .ok { classes := insertA ms.classes class_name metadata }

end Metaspace

mutual

/-- Character loop of `Interpreter::parse_arg_count`, over the remaining
characters with the running count. `B C S I F Z` and `J D` each add one;
`L` enters the semicolon-skip loop and adds one; after `[` one more
character is consumed (entering the semicolon-skip loop when it is `L`)
and one is added; a `)` stops; any other character is ignored. When `[`
is the last character the iterator is exhausted, the count still rises by
one and the loop ends. -/
def parseArgCountAux : List Char → Nat → Nat
  | [], count => count
  | ch :: rest, count =>
    if ch = ')' then count
    else if ch = 'B' ∨ ch = 'C' ∨ ch = 'S' ∨ ch = 'I' ∨ ch = 'F' ∨ ch = 'Z' then
      parseArgCountAux rest (count + 1)
    else if ch = 'J' ∨ ch = 'D' then parseArgCountAux rest (count + 1)
    else if ch = 'L' then skipToSemiThen rest (count + 1)
    else if ch = '[' then
      match rest with
      | [] => count + 1
      | c2 :: rest2 =>
        if c2 = 'L' then skipToSemiThen rest2 (count + 1)
        else parseArgCountAux rest2 (count + 1)
    else parseArgCountAux rest count

/-- The inner `while let` loop of the `L` cases: consume characters up to
and including a semicolon, then resume the outer scan; an exhausted
iterator ends the outer loop as well. -/
def skipToSemiThen : List Char → Nat → Nat
  | [], count => count
  | c :: rest, count =>
    if c = ';' then parseArgCountAux rest count else skipToSemiThen rest count

end

/-- Bytecode dispatch outcome (src/interpreter/mod.rs, `enum
InstructionControl`). -/
inductive InstructionControl where
  | Continue
  | Return (val : Option JvmValue)
deriving DecidableEq, Repr

/- Opcode constants used by the interpreter
(src/interpreter/instructions.rs). -/
namespace opcodes

abbrev NOP : Nat := 0x00
abbrev ICONST_M1 : Nat := 0x02
abbrev ICONST_0 : Nat := 0x03
abbrev ICONST_1 : Nat := 0x04
abbrev ICONST_2 : Nat := 0x05
abbrev ICONST_3 : Nat := 0x06
abbrev ICONST_4 : Nat := 0x07
abbrev ICONST_5 : Nat := 0x08
abbrev BIPUSH : Nat := 0x10
abbrev SIPUSH : Nat := 0x11
abbrev ILOAD : Nat := 0x15
abbrev ALOAD : Nat := 0x19
abbrev ILOAD_0 : Nat := 0x1a
abbrev ILOAD_1 : Nat := 0x1b
abbrev ILOAD_2 : Nat := 0x1c
abbrev ILOAD_3 : Nat := 0x1d
abbrev ALOAD_0 : Nat := 0x2a
abbrev ALOAD_1 : Nat := 0x2b
abbrev ALOAD_2 : Nat := 0x2c
abbrev ALOAD_3 : Nat := 0x2d
abbrev ISTORE_0 : Nat := 0x3b
abbrev ISTORE_1 : Nat := 0x3c
abbrev ISTORE_2 : Nat := 0x3d
abbrev ISTORE_3 : Nat := 0x3e
abbrev ASTORE_0 : Nat := 0x4b
abbrev ASTORE_1 : Nat := 0x4c
abbrev ASTORE_2 : Nat := 0x4d
abbrev ASTORE_3 : Nat := 0x4e
abbrev DUP : Nat := 0x59
abbrev IADD : Nat := 0x60
abbrev ISUB : Nat := 0x64
abbrev IMUL : Nat := 0x68
abbrev IDIV : Nat := 0x6c
abbrev IFEQ : Nat := 0x99
abbrev IFNE : Nat := 0x9a
abbrev IFLT : Nat := 0x9b
abbrev IFGE : Nat := 0x9c
abbrev IFGT : Nat := 0x9d
abbrev IFLE : Nat := 0x9e
abbrev IF_ICMPEQ : Nat := 0x9f
abbrev IF_ICMPNE : Nat := 0xa0
abbrev IF_ICMPLT : Nat := 0xa1
abbrev IF_ICMPGE : Nat := 0xa2
abbrev IF_ICMPGT : Nat := 0xa3
abbrev IF_ICMPLE : Nat := 0xa4
abbrev GOTO : Nat := 0xa7
abbrev IRETURN : Nat := 0xac
abbrev RETURN : Nat := 0xb1
abbrev GETSTATIC : Nat := 0xb2
abbrev GETFIELD : Nat := 0xb4
abbrev PUTFIELD : Nat := 0xb5
abbrev INVOKEVIRTUAL : Nat := 0xb6
abbrev INVOKESPECIAL : Nat := 0xb7
abbrev INVOKESTATIC : Nat := 0xb8
abbrev NEW : Nat := 0xbb

end opcodes

/-- Unguarded `Vec` indexing `code[i]` of the operand-byte reads inside the
handlers: out of bounds is a Rust panic, not an `anyhow` error. -/
def idxByte (code : List Nat) (i : Nat) : Except JvmError Nat :=
  match code.get? i with
  | some b => .ok b
  | none => .error .panicIndexOutOfBounds

/-- Interpreter state (src/interpreter/mod.rs, `struct Interpreter`). -/
structure Interpreter where
  heap : Heap
  thread : JvmThread
  metaspace : Metaspace
deriving DecidableEq, Repr

namespace Interpreter

/-- `Interpreter::new`. -/
def new : Interpreter :=
  { heap := Heap.new, thread := JvmThread.new, metaspace := Metaspace.new }

/-- `Interpreter::parse_arg_count`: parameter count of a method
descriptor, scanning the characters after the first one. -/
def parse_arg_count (descriptor : String) : Nat :=
  parseArgCountAux (descriptor.data.drop 1) 0

/-- Shared literal shape of the six single-operand branch arms (IFEQ test
against zero and friends): decode the signed 16-bit offset, pop one Int,
branch to `(pc as i32 + offset as i32) as usize` when the comparison
holds, else advance by 3. -/
def if0Arm (s : Interpreter) (f : Frame) (rest : List Frame) (code : List Nat) (pc : Nat)
    (cond : Int → Bool) : Except JvmError (InstructionControl × Interpreter) :=
  match idxByte code (pc + 1) with
  | .error e => .error e
  | .ok b1 =>
    match idxByte code (pc + 2) with
    | .error e => .error e
    | .ok b2 =>
      let offset := i16OfBytes b1 b2
      match f.pop_int with
      | .error e => .error e
      | .ok (value, f) =>
        if cond value then
          match branchTarget pc offset with
          | .error e => .error e
          | .ok t => .ok (.Continue, { s with thread := { stack := f :: rest, pc := t } })
        else .ok (.Continue, { s with thread := { stack := f :: rest, pc := pc + 3 } })

/-- Shared literal shape of the six two-operand comparison branch arms
(IF_ICMPEQ and friends): pop v2 then v1, branch on `v1 cmp v2`. -/
def ifIcmpArm (s : Interpreter) (f : Frame) (rest : List Frame) (code : List Nat) (pc : Nat)
    (cond : Int → Int → Bool) : Except JvmError (InstructionControl × Interpreter) :=
  match idxByte code (pc + 1) with
  | .error e => .error e
  | .ok b1 =>
    match idxByte code (pc + 2) with
    | .error e => .error e
    | .ok b2 =>
      let offset := i16OfBytes b1 b2
      match f.pop_int with
      | .error e => .error e
      | .ok (v2, f) =>
        match f.pop_int with
        | .error e => .error e
        | .ok (v1, f) =>
          if cond v1 v2 then
            match branchTarget pc offset with
            | .error e => .error e
            | .ok t => .ok (.Continue, { s with thread := { stack := f :: rest, pc := t } })
          else .ok (.Continue, { s with thread := { stack := f :: rest, pc := pc + 3 } })

/-- `Interpreter::execute_instruction_explicit`: one instruction as a
transition over the interpreter state, arms in source order. The opcode
byte is the loop's argument; `code`, `pc` and `class_name` are snapshots
of the current (top) frame, whose absence is the `current_frame` /
`current_code` error. -/
def execute_instruction_explicit (s : Interpreter) (opcode : Nat) :
    Except JvmError (InstructionControl × Interpreter) :=
  match s.thread.stack with
  | [] => .error .threadStackEmpty
  | f :: rest =>
    let code := f.code
    let pc := s.thread.pc
    let class_name := f.class_name
    if opcode = opcodes.NOP then
      .ok (.Continue, { s with thread := { s.thread with pc := pc + 1 } })
    else if opcode = opcodes.NEW then
      match idxByte code (pc + 1) with
      | .error e => .error e
      | .ok b1 =>
        match idxByte code (pc + 2) with
        | .error e => .error e
        | .ok b2 =>
          let class_index := u16OfBytes b1 b2
          match s.metaspace.get_class class_name with
          | .error e => .error e
          | .ok class_meta =>
            match class_meta.resolve_class_ref class_index with
            | .error e => .error e
            | .ok (target_class_name, class_meta) =>
              let ms := s.metaspace.put_class class_name class_meta
              let (ptr, heap) := s.heap.allocate target_class_name
              .ok (.Continue,
                { heap := heap,
                  thread := { stack := f.push (.Reference (some ptr)) :: rest, pc := pc + 3 },
                  metaspace := ms })
    else if opcode = opcodes.PUTFIELD then
      match idxByte code (pc + 1) with
      | .error e => .error e
      | .ok b1 =>
        match idxByte code (pc + 2) with
        | .error e => .error e
        | .ok b2 =>
          let field_index := u16OfBytes b1 b2
          match s.metaspace.get_class class_name with
          | .error e => .error e
          | .ok class_meta =>
            match class_meta.resolve_field_ref field_index with
            | .error e => .error e
            | .ok (field_ref, class_meta) =>
              let ms := s.metaspace.put_class class_name class_meta
              match f.pop with
              | .error e => .error e
              | .ok (value, f) =>
                match f.pop_ref with
                | .error e => .error e
                | .ok (none, _) => .error .nullReference
                | .ok (some obj_ref, f) =>
                  match s.heap.set_field obj_ref field_ref.field_name value with
                  | .error e => .error e
                  | .ok heap =>
                    .ok (.Continue,
                      { heap := heap,
                        thread := { stack := f :: rest, pc := pc + 3 },
                        metaspace := ms })
    else if opcode = opcodes.GETFIELD then
      match idxByte code (pc + 1) with
      | .error e => .error e
      | .ok b1 =>
        match idxByte code (pc + 2) with
        | .error e => .error e
        | .ok b2 =>
          let field_index := u16OfBytes b1 b2
          match s.metaspace.get_class class_name with
          | .error e => .error e
          | .ok class_meta =>
            match class_meta.resolve_field_ref field_index with
            | .error e => .error e
            | .ok (field_ref, class_meta) =>
              let ms := s.metaspace.put_class class_name class_meta
              match f.pop_ref with
              | .error e => .error e
              | .ok (none, _) => .error .nullReference
              | .ok (some obj_ref, f) =>
                match s.heap.get_field obj_ref field_ref.field_name with
                | .error e => .error e
                | .ok val =>
                  .ok (.Continue,
                    { s with
                      metaspace := ms
                      thread := { stack := f.push val :: rest, pc := pc + 3 } })
    else if opcode = opcodes.INVOKESPECIAL then
      match idxByte code (pc + 1) with
      | .error e => .error e
      | .ok b1 =>
        match idxByte code (pc + 2) with
        | .error e => .error e
        | .ok b2 =>
          let method_index := u16OfBytes b1 b2
          match s.metaspace.get_class class_name with
          | .error e => .error e
          | .ok class_meta =>
            match class_meta.resolve_method_ref method_index with
            | .error e => .error e
            | .ok (method_ref, class_meta) =>
              let ms := s.metaspace.put_class class_name class_meta
              let is_system_class := method_ref.class_name.startsWith "java/"
              if !is_system_class && !(ms.is_class_loaded method_ref.class_name) then
                .error (.classNotLoaded method_ref.class_name)
              else if is_system_class then
                .ok (.Continue, { s with metaspace := ms, thread := { s.thread with pc := pc + 3 } })
              else
                match ms.get_class method_ref.class_name with
                | .error e => .error e
                | .ok target_class =>
                  let method_key := method_ref.method_name ++ ":" ++ method_ref.descriptor
                  match lookupA target_class.methods method_key with
                  | none => .error (.methodNotFound method_ref.class_name method_key)
                  | some method =>
                    let arg_count := parse_arg_count method.descriptor
                    match Frame.popN arg_count f with
                    | .error e => .error e
                    | .ok (args, f) =>
                      let args := args.reverse
                      match f.pop with
                      | .error e => .error e
                      | .ok (objectref, f) =>
                        let new_frame := Frame.new_with_context method.max_locals
                          method.max_stack method_ref.class_name method.code (some (pc + 3))
                        match new_frame.set_local 0 objectref with
                        | .error e => .error e
                        | .ok new_frame =>
                          match Frame.setLocalsFrom args 1 new_frame with
                          | .error e => .error e
                          | .ok new_frame =>
                            .ok (.Continue,
                              { s with
                                metaspace := ms
                                thread := { stack := new_frame :: f :: rest, pc := 0 } })
    else if opcode = opcodes.DUP then
      match f.pop with
      | .error e => .error e
      | .ok (value, f) =>
        .ok (.Continue,
          { s with thread := { stack := (f.push value).push value :: rest, pc := pc + 1 } })
    else if opcode = opcodes.ICONST_M1 then
      .ok (.Continue, { s with thread := { stack := f.push (.IntV (-1)) :: rest, pc := pc + 1 } })
    else if opcode = opcodes.ICONST_0 then
      .ok (.Continue, { s with thread := { stack := f.push (.IntV 0) :: rest, pc := pc + 1 } })
    else if opcode = opcodes.ICONST_1 then
      .ok (.Continue, { s with thread := { stack := f.push (.IntV 1) :: rest, pc := pc + 1 } })
    else if opcode = opcodes.ICONST_2 then
      .ok (.Continue, { s with thread := { stack := f.push (.IntV 2) :: rest, pc := pc + 1 } })
    else if opcode = opcodes.ICONST_3 then
      .ok (.Continue, { s with thread := { stack := f.push (.IntV 3) :: rest, pc := pc + 1 } })
    else if opcode = opcodes.ICONST_4 then
      .ok (.Continue, { s with thread := { stack := f.push (.IntV 4) :: rest, pc := pc + 1 } })
    else if opcode = opcodes.ICONST_5 then
      .ok (.Continue, { s with thread := { stack := f.push (.IntV 5) :: rest, pc := pc + 1 } })
    else if opcode = opcodes.BIPUSH then
      match idxByte code (pc + 1) with
      | .error e => .error e
      | .ok b =>
        .ok (.Continue,
          { s with thread := { stack := f.push (.IntV (i8OfByte b)) :: rest, pc := pc + 2 } })
    else if opcode = opcodes.SIPUSH then
      match idxByte code (pc + 1) with
      | .error e => .error e
      | .ok b1 =>
        match idxByte code (pc + 2) with
        | .error e => .error e
        | .ok b2 =>
          .ok (.Continue,
            { s with thread :=
              { stack := f.push (.IntV (i16OfBytes b1 b2)) :: rest, pc := pc + 3 } })
    else if opcode = opcodes.ALOAD ∨ opcode = opcodes.ILOAD then
      match idxByte code (pc + 1) with
      | .error e => .error e
      | .ok index =>
        match f.get_local index with
        | .error e => .error e
        | .ok value =>
          .ok (.Continue, { s with thread := { stack := f.push value :: rest, pc := pc + 2 } })
    else if opcode = opcodes.ALOAD_0 ∨ opcode = opcodes.ALOAD_1 ∨
        opcode = opcodes.ALOAD_2 ∨ opcode = opcodes.ALOAD_3 then
      let index := opcode - opcodes.ALOAD_0
      match f.get_local index with
      | .error e => .error e
      | .ok value =>
        .ok (.Continue, { s with thread := { stack := f.push value :: rest, pc := pc + 1 } })
    else if opcode = opcodes.ILOAD_0 ∨ opcode = opcodes.ILOAD_1 ∨
        opcode = opcodes.ILOAD_2 ∨ opcode = opcodes.ILOAD_3 then
      let index := opcode - opcodes.ILOAD_0
      match f.get_local index with
      | .error e => .error e
      | .ok value =>
        .ok (.Continue, { s with thread := { stack := f.push value :: rest, pc := pc + 1 } })
    else if opcode = opcodes.ASTORE_0 ∨ opcode = opcodes.ASTORE_1 ∨
        opcode = opcodes.ASTORE_2 ∨ opcode = opcodes.ASTORE_3 then
      let index := opcode - opcodes.ASTORE_0
      match f.pop with
      | .error e => .error e
      | .ok (value, f) =>
        match f.set_local index value with
        | .error e => .error e
        | .ok f => .ok (.Continue, { s with thread := { stack := f :: rest, pc := pc + 1 } })
    else if opcode = opcodes.ISTORE_0 ∨ opcode = opcodes.ISTORE_1 ∨
        opcode = opcodes.ISTORE_2 ∨ opcode = opcodes.ISTORE_3 then
      let index := opcode - opcodes.ISTORE_0
      match f.pop with
      | .error e => .error e
      | .ok (value, f) =>
        match f.set_local index value with
        | .error e => .error e
        | .ok f => .ok (.Continue, { s with thread := { stack := f :: rest, pc := pc + 1 } })
    else if opcode = opcodes.IADD then
      match f.pop_int with
      | .error e => .error e
      | .ok (v2, f) =>
        match f.pop_int with
        | .error e => .error e
        | .ok (v1, f) =>
          match rustAddI32 v1 v2 with
          | .error e => .error e
          | .ok r =>
            .ok (.Continue,
              { s with thread := { stack := f.push (.IntV r) :: rest, pc := pc + 1 } })
    else if opcode = opcodes.ISUB then
      match f.pop_int with
      | .error e => .error e
      | .ok (v2, f) =>
        match f.pop_int with
        | .error e => .error e
        | .ok (v1, f) =>
          match rustSubI32 v1 v2 with
          | .error e => .error e
          | .ok r =>
            .ok (.Continue,
              { s with thread := { stack := f.push (.IntV r) :: rest, pc := pc + 1 } })
    else if opcode = opcodes.IMUL then
      match f.pop_int with
      | .error e => .error e
      | .ok (v2, f) =>
        match f.pop_int with
        | .error e => .error e
        | .ok (v1, f) =>
          match rustMulI32 v1 v2 with
          | .error e => .error e
          | .ok r =>
            .ok (.Continue,
              { s with thread := { stack := f.push (.IntV r) :: rest, pc := pc + 1 } })
    else if opcode = opcodes.IDIV then
      match f.pop_int with
      | .error e => .error e
      | .ok (v2, f) =>
        match f.pop_int with
        | .error e => .error e
        | .ok (v1, f) =>
          if v2 = 0 then .error .divisionByZero
          else
            match rustDivI32 v1 v2 with
            | .error e => .error e
            | .ok r =>
              .ok (.Continue,
                { s with thread := { stack := f.push (.IntV r) :: rest, pc := pc + 1 } })
    else if opcode = opcodes.IFEQ then if0Arm s f rest code pc (fun v => v = 0)
    else if opcode = opcodes.IFNE then if0Arm s f rest code pc (fun v => v ≠ 0)
    else if opcode = opcodes.IFLT then if0Arm s f rest code pc (fun v => v < 0)
    else if opcode = opcodes.IFGE then if0Arm s f rest code pc (fun v => v ≥ 0)
    else if opcode = opcodes.IFGT then if0Arm s f rest code pc (fun v => v > 0)
    else if opcode = opcodes.IFLE then if0Arm s f rest code pc (fun v => v ≤ 0)
    else if opcode = opcodes.IF_ICMPEQ then ifIcmpArm s f rest code pc (fun v1 v2 => v1 = v2)
    else if opcode = opcodes.IF_ICMPNE then ifIcmpArm s f rest code pc (fun v1 v2 => v1 ≠ v2)
    else if opcode = opcodes.IF_ICMPLT then ifIcmpArm s f rest code pc (fun v1 v2 => v1 < v2)
    else if opcode = opcodes.IF_ICMPGE then ifIcmpArm s f rest code pc (fun v1 v2 => v1 ≥ v2)
    else if opcode = opcodes.IF_ICMPGT then ifIcmpArm s f rest code pc (fun v1 v2 => v1 > v2)
    else if opcode = opcodes.IF_ICMPLE then ifIcmpArm s f rest code pc (fun v1 v2 => v1 ≤ v2)
    else if opcode = opcodes.GOTO then
      match idxByte code (pc + 1) with
      | .error e => .error e
      | .ok b1 =>
        match idxByte code (pc + 2) with
        | .error e => .error e
        | .ok b2 =>
          let offset := i16OfBytes b1 b2
          match branchTarget pc offset with
          | .error e => .error e
          | .ok t => .ok (.Continue, { s with thread := { s.thread with pc := t } })
    else if opcode = opcodes.INVOKESTATIC then
      match idxByte code (pc + 1) with
      | .error e => .error e
      | .ok b1 =>
        match idxByte code (pc + 2) with
        | .error e => .error e
        | .ok b2 =>
          let index := u16OfBytes b1 b2
          match s.metaspace.get_class class_name with
          | .error e => .error e
          | .ok class_meta =>
            match class_meta.resolve_method_ref index with
            | .error e => .error e
            | .ok (method_ref, class_meta) =>
              let ms := s.metaspace.put_class class_name class_meta
              let is_system_class := method_ref.class_name.startsWith "java/"
              if !is_system_class && !(ms.is_class_loaded method_ref.class_name) then
                .error (.classNotLoaded method_ref.class_name)
              else if is_system_class then
                .ok (.Continue, { s with metaspace := ms, thread := { s.thread with pc := pc + 3 } })
              else
                match ms.get_class method_ref.class_name with
                | .error e => .error e
                | .ok target_class =>
                  let method_key := method_ref.method_name ++ ":" ++ method_ref.descriptor
                  match lookupA target_class.methods method_key with
                  | none => .error (.methodNotFound method_ref.class_name method_key)
                  | some method =>
                    let arg_count := parse_arg_count method.descriptor
                    match Frame.popN arg_count f with
                    | .error e => .error e
                    | .ok (args, f) =>
                      let args := args.reverse
                      let new_frame := Frame.new_with_context method.max_locals
                        method.max_stack method_ref.class_name method.code (some (pc + 3))
                      match Frame.setLocalsFrom args 0 new_frame with
                      | .error e => .error e
                      | .ok new_frame =>
                        .ok (.Continue,
                          { s with
                            metaspace := ms
                            thread := { stack := new_frame :: f :: rest, pc := 0 } })
    else if opcode = opcodes.GETSTATIC then
      match idxByte code (pc + 1) with
      | .error e => .error e
      | .ok _ =>
        match idxByte code (pc + 2) with
        | .error e => .error e
        | .ok _ =>
          .ok (.Continue,
            { s with thread :=
              { stack := f.push (.Reference (some 0xFFFF)) :: rest, pc := pc + 3 } })
    else if opcode = opcodes.INVOKEVIRTUAL then
      match idxByte code (pc + 1) with
      | .error e => .error e
      | .ok b1 =>
        match idxByte code (pc + 2) with
        | .error e => .error e
        | .ok b2 =>
          let index := u16OfBytes b1 b2
          match s.metaspace.get_class class_name with
          | .error e => .error e
          | .ok class_meta =>
            match class_meta.resolve_method_ref index with
            | .error e => .error e
            | .ok (method_ref, class_meta) =>
              let ms := s.metaspace.put_class class_name class_meta
              if method_ref.method_name = "println" then
                let arg_count := parse_arg_count method_ref.descriptor
                match Frame.popN arg_count f with
                | .error e => .error e
                | .ok (args, f) =>
                  let _ := args.reverse
                  match f.pop with
                  | .error e => .error e
                  | .ok (_objectref, f) =>
                    .ok (.Continue,
                      { s with metaspace := ms, thread := { stack := f :: rest, pc := pc + 3 } })
              else
                .error (.invokevirtualUnsupported method_ref.class_name method_ref.method_name)
    else if opcode = opcodes.IRETURN then
      match f.pop with
      | .error e => .error e
      | .ok (return_value, old_frame) =>
        match rest with
        | g :: rest2 =>
          match old_frame.return_address with
          | some return_addr =>
            .ok (.Continue,
              { s with thread := { stack := g.push return_value :: rest2, pc := return_addr } })
          | none => .error .missingReturnAddress
        | [] => .ok (.Return (some return_value), { s with thread := { stack := [], pc := pc } })
    else if opcode = opcodes.RETURN then
      match rest with
      | _ :: _ =>
        match f.return_address with
        | some return_addr =>
          .ok (.Continue, { s with thread := { stack := rest, pc := return_addr } })
        | none => .error .missingReturnAddress
      | [] => .ok (.Return none, { s with thread := { stack := [], pc := pc } })
    else .error (.unknownOpcode opcode pc)

/-- The fetch/decode/execute loop of `execute_method_with_class`, with an
explicit fuel bound (none = fuel exhausted). Each iteration re-reads the
top frame's code, bounds-checks the PC, reads the opcode byte and
dispatches. -/
def runLoop : Nat → Interpreter → Option (Except JvmError (Option JvmValue))
  | 0, _ => none
  | fuel + 1, s =>
    if s.thread.stack_depth = 0 then some (.ok none)
    else
      match s.thread.current_code with
      | .error e => some (.error e)
      | .ok code =>
        let pc := s.thread.pc
        if code.length ≤ pc then some (.error (.pcOutOfBounds pc code.length))
        else
          match code.get? pc with
          | none => some (.error .panicIndexOutOfBounds)
          | some opcode =>
            match s.execute_instruction_explicit opcode with
            | .error e => some (.error e)
            | .ok (.Continue, s') => runLoop fuel s'
            | .ok (.Return val, _) => some (.ok val)

/-- `Interpreter::execute_method_with_class`: push the initial frame with
no return address, zero the PC and run the loop. -/
def execute_method_with_class (s : Interpreter) (class_name : String) (code : List Nat)
    (max_locals max_stack : Nat) (fuel : Nat) : Option (Except JvmError (Option JvmValue)) :=
  let frame := Frame.new_with_context max_locals max_stack class_name code none
  runLoop fuel { s with thread := { stack := frame :: s.thread.stack, pc := 0 } }

/-- `Interpreter::load_class`: load into the metaspace unless already
present; returns the internal class name. -/
def load_class (s : Interpreter) (class_file : ClassFile) :
    Except JvmError (String × Interpreter) :=
  match class_file.get_class_name with
  | .error e => .error e
  | .ok class_name =>
    if s.metaspace.is_class_loaded class_name then .ok (class_name, s)
    else
      match s.metaspace.load_class class_file with
      | .error e => .error e
      | .ok ms => .ok (class_name, { s with metaspace := ms })

end Interpreter

/-! Shared lemmas about the embedded runtime operations. -/

theorem lookupA_insertA_self {α : Type} (m : List (String × α)) (k : String) (v : α) :
    lookupA (insertA m k v) k = some v := by
  induction m with
  | nil => simp [insertA, lookupA]
  | cons p rest ih =>
    by_cases hk : p.1 = k
    · simp [insertA, hk, lookupA]
    · simp [insertA, hk, lookupA, ih]

theorem popN_append (vs : List JvmValue) :
    ∀ (f : Frame) (tl : List JvmValue), f.operand_stack = vs ++ tl →
      Frame.popN vs.length f = .ok (vs, { f with operand_stack := tl }) := by
  induction vs with
  | nil =>
    intro f tl h
    cases f
    simp_all [Frame.popN]
  | cons v vs ih =>
    intro f tl h
    simp only [List.length_cons, Frame.popN, Frame.pop, h, List.cons_append]
    rw [ih { f with operand_stack := vs ++ tl } tl rfl]

theorem setLocalsFrom_ok (args : List JvmValue) :
    ∀ (i : Nat) (f : Frame), i + args.length ≤ f.local_vars.length →
      ∃ f', Frame.setLocalsFrom args i f = .ok f' ∧
        f'.local_vars.length = f.local_vars.length ∧
        (∀ j, j < args.length → f'.local_vars.get? (i + j) = args.get? j) ∧
        (∀ j, j < i → f'.local_vars.get? j = f.local_vars.get? j) ∧
        f'.operand_stack = f.operand_stack ∧ f'.class_name = f.class_name ∧
        f'.return_address = f.return_address ∧ f'.code = f.code ∧
        f'.max_stack = f.max_stack ∧ f'.max_locals = f.max_locals := by
  induction args with
  | nil =>
    intro i f _
    exact ⟨f, rfl, rfl, fun j hj => absurd hj (Nat.not_lt_zero j), fun j _ => rfl,
      rfl, rfl, rfl, rfl, rfl, rfl⟩
  | cons a args ih =>
    intro i f hlen
    have hi : i < f.local_vars.length := by simp at hlen; omega
    have hset : f.set_local i a = .ok { f with local_vars := f.local_vars.set i a } := by
      simp [Frame.set_local, Nat.not_le.mpr hi]
    have hlen2 : (i + 1) + args.length ≤ (f.local_vars.set i a).length := by
      simp only [List.length_set]
      simp at hlen
      omega
    obtain ⟨f', hrun, hL, hin, hout, hos, hcn, hra, hcode, hms, hml⟩ :=
      ih (i + 1) { f with local_vars := f.local_vars.set i a } hlen2
    refine ⟨f', ?_, ?_, ?_, ?_, hos, hcn, hra, hcode, hms, hml⟩
    · simp only [Frame.setLocalsFrom, hset, hrun]
    · simpa [List.length_set] using hL
    · intro j hj
      match j with
      | 0 =>
        have h0 := hout i (Nat.lt_succ_self i)
        simp only [Nat.add_zero]
        rw [h0]
        simp [List.get?_eq_getElem?, List.getElem?_set_self', List.getElem?_eq_getElem hi]
      | j + 1 =>
        have hj2 := hin j (by simpa using hj)
        rw [show i + (j + 1) = (i + 1) + j by omega]
        rw [hj2]
        simp
    · intro j hj
      have hout2 := hout j (Nat.lt_succ_of_lt hj)
      rw [hout2]
      simp only [List.get?_eq_getElem?]
      exact List.getElem?_set_ne (by omega)

theorem pc_lt_of_get? {l : List Nat} {n a : Nat} (h : l.get? n = some a) :
    ¬ l.length ≤ n := by
  intro hle
  rw [List.get?_eq_none.mpr hle] at h
  exact Option.noConfusion h

theorem runLoop_cons_error (fuel : Nat) (s : Interpreter) (f : Frame) (frest : List Frame)
    (op : Nat) (e : JvmError)
    (hstack : s.thread.stack = f :: frest)
    (hop : f.code.get? s.thread.pc = some op)
    (hstep : s.execute_instruction_explicit op = .error e) :
    Interpreter.runLoop (fuel + 1) s = some (.error e) := by
  have hop2 := hop
  simp only [List.get?_eq_getElem?] at hop2
  simp only [Interpreter.runLoop, JvmThread.stack_depth, JvmThread.current_code, hstack]
  simp [pc_lt_of_get? hop, hop2, hstep]

theorem runLoop_cons_return (fuel : Nat) (s s2 : Interpreter) (f : Frame) (frest : List Frame)
    (op : Nat) (v : Option JvmValue)
    (hstack : s.thread.stack = f :: frest)
    (hop : f.code.get? s.thread.pc = some op)
    (hstep : s.execute_instruction_explicit op = .ok (.Return v, s2)) :
    Interpreter.runLoop (fuel + 1) s = some (.ok v) := by
  have hop2 := hop
  simp only [List.get?_eq_getElem?] at hop2
  simp only [Interpreter.runLoop, JvmThread.stack_depth, JvmThread.current_code, hstack]
  simp [pc_lt_of_get? hop, hop2, hstep]

/-! Concrete fixtures reused by witnesses and counterexamples. -/

/-- A frame with zeroed locals, used to instantiate theorems at concrete
inputs. -/
def sampleFrame (os : List JvmValue) (code : List Nat) (max_stack max_locals : Nat)
    (ra : Option Nat) : Frame :=
  { local_vars := List.replicate max_locals (.IntV 0)
    operand_stack := os
    class_name := "Main"
    return_address := ra
    code := code
    max_stack := max_stack
    max_locals := max_locals }

/-- An interpreter state with the given frame stack, PC 0, empty heap and
metaspace. -/
def sampleState (frames : List Frame) : Interpreter :=
  { heap := Heap.new
    thread := { stack := frames, pc := 0 }
    metaspace := Metaspace.new }

/-- Callee class metadata fixture: a static `sum:(II)I` whose body is
`iload_0 iload_1 iadd ireturn`. -/
def calcMeta : ClassMetadata :=
  { name := "Calc"
    super_class := some "java/lang/Object"
    interfaces := []
    access_flags := 0
    constant_pool := []
    runtime_pool := RuntimeConstantPool.new
    methods := [("sum:(II)I",
      { name := "sum", descriptor := "(II)I", access_flags := 9, max_stack := 2, max_locals := 2,
        code := [0x1a, 0x1b, 0x60, 0xac], is_static := true, is_native := false,
        is_abstract := false })]
    fields := []
    static_fields := []
    state := .Loaded }

/-- Caller class metadata fixture whose constant pool resolves index 6 to
`Calc.sum:(II)I`. -/
def mainMeta : ClassMetadata :=
  { name := "Main"
    super_class := some "java/lang/Object"
    interfaces := []
    access_flags := 0
    constant_pool := [none, some (.Utf8 "Calc"), some (.Class 1), some (.Utf8 "sum"),
      some (.Utf8 "(II)I"), some (.NameAndType 3 4), some (.MethodRef 2 5)]
    runtime_pool := RuntimeConstantPool.new
    methods := []
    fields := []
    static_fields := []
    state := .Loaded }

/-- `mainMeta` after the first resolution of constant-pool index 6 has
populated both runtime-pool caches. -/
def mainMetaResolved : ClassMetadata :=
  { mainMeta with runtime_pool :=
    { resolved_methods :=
        [(6, { class_name := "Calc", method_name := "sum", descriptor := "(II)I" })]
      resolved_fields := []
      resolved_classes := [(2, "Calc")] } }

/-- Callee frame fixture about to execute its final `ireturn` with Int 7 on
top, with saved return address 5. -/
def calleeFrame : Frame := sampleFrame [.IntV 7] [opcodes.IRETURN] 1 0 (some 5)

/-- Caller frame fixture below `calleeFrame`. -/
def callerFrame : Frame := sampleFrame [] [0x10, 0x14, 0xb8, 0x00, 0x06, 0xac] 2 0 none

/-! The claim theorems. -/

/-- C3: the specification claims two's-complement wrap-around for the
arithmetic opcodes and that `idiv` of INT_MIN by -1 wraps to INT_MIN. The
code computes `v1 / v2` and `v1 + v2` with Rust's checked operators:
`idiv INT_MIN (-1)` aborts with an arithmetic-overflow panic in every
build profile instead of pushing INT_MIN, and `iadd INT_MAX 1` likewise
panics under the default (debug) profile instead of wrapping. -/
theorem integer_overflow_panics_instead_of_wrapping :
    (sampleState [sampleFrame [.IntV (-1), .IntV (-(2 ^ 31))]
        [opcodes.IDIV] 2 0 none]).execute_instruction_explicit opcodes.IDIV =
      .error .panicArithmeticOverflow ∧
    (sampleState [sampleFrame [.IntV 1, .IntV (2 ^ 31 - 1)]
        [opcodes.IADD] 2 0 none]).execute_instruction_explicit opcodes.IADD =
      .error .panicArithmeticOverflow :=
  ⟨rfl, rfl⟩

/-- C4 counterexample: in the frame `execute_method_with_class` builds for
max_stack = 0, executing `iconst_0` produces an instruction boundary
whose operand-stack depth 1 exceeds max_stack 0, and the dispatch loop
nevertheless completes that program normally, so depth ≤ max_stack does
not hold at every boundary. -/
theorem operand_stack_depth_exceeds_max_stack :
    Interpreter.execute_method_with_class Interpreter.new "Main"
      [opcodes.ICONST_0, opcodes.IRETURN] 0 0 10 = some (.ok (some (.IntV 0))) ∧
    Except.map (fun p => p.2.thread.stack.head?.map fun fr => (fr.stack_size, fr.max_stack))
      ((sampleState [sampleFrame [] [opcodes.ICONST_0, opcodes.IRETURN]
        0 0 none]).execute_instruction_explicit opcodes.ICONST_0) = .ok (some (1, 0)) ∧
    ¬ (1 ≤ 0) :=
  ⟨rfl, rfl, by decide⟩

/-- C4 amended: `Frame::push` performs no max_stack comparison, so an
executed push instruction (`iconst_0` here) always deepens the current
frame's operand stack by exactly one, regardless of how its depth
compares to max_stack; depth ≤ max_stack is therefore not an interpreter
invariant, max_stack only presizes the stack's capacity. -/
theorem push_has_no_max_stack_check (s : Interpreter) (f : Frame) (frest : List Frame)
    (hstack : s.thread.stack = f :: frest) :
    s.execute_instruction_explicit opcodes.ICONST_0 =
      .ok (.Continue,
        { s with thread := { stack := f.push (.IntV 0) :: frest, pc := s.thread.pc + 1 } }) ∧
    (f.push (.IntV 0)).stack_size = f.stack_size + 1 ∧
    (f.push (.IntV 0)).max_stack = f.max_stack := by
  refine ⟨?_, rfl, rfl⟩
  simp only [Interpreter.execute_instruction_explicit, hstack]
  norm_num

/-- Witness for the C4 amended theorem at a frame whose depth 1 already
exceeds its max_stack 0: the push still happens and yields depth 2. -/
theorem push_has_no_max_stack_check_witness :
    Except.map (fun p => p.2.thread.stack.head?.map fun fr => (fr.stack_size, fr.max_stack))
      ((sampleState [sampleFrame [.IntV 5] [opcodes.ICONST_0]
        0 0 none]).execute_instruction_explicit opcodes.ICONST_0) = .ok (some (2, 0)) := by
  have h := push_has_no_max_stack_check
    (sampleState [sampleFrame [.IntV 5] [opcodes.ICONST_0] 0 0 none])
    (sampleFrame [.IntV 5] [opcodes.ICONST_0] 0 0 none) [] rfl
  rw [h.1]
  rfl

/-- C5: `idiv` fails with the division-by-zero error exactly when the
divisor v2 (popped first) is zero; the failure aborts the dispatch loop
(fatal to the invocation), so no quotient is pushed. -/
theorem idiv_fails_iff_divisor_zero (s : Interpreter) (f : Frame) (frest : List Frame)
    (v1 v2 : Int) (tl : List JvmValue) (fuel : Nat)
    (hstack : s.thread.stack = f :: frest)
    (hos : f.operand_stack = .IntV v2 :: .IntV v1 :: tl)
    (hcode : f.code.get? s.thread.pc = some opcodes.IDIV) :
    (s.execute_instruction_explicit opcodes.IDIV = .error .divisionByZero ↔ v2 = 0) ∧
    (v2 = 0 → Interpreter.runLoop (fuel + 1) s = some (.error .divisionByZero)) := by
  have hstep : s.execute_instruction_explicit opcodes.IDIV =
      if v2 = 0 then .error .divisionByZero
      else
        match rustDivI32 v1 v2 with
        | .error e => .error e
        | .ok r =>
          .ok (.Continue,
            { s with thread :=
              { stack := ({ f with operand_stack := tl }).push (.IntV r) :: frest,
                pc := s.thread.pc + 1 } }) := by
    simp only [Interpreter.execute_instruction_explicit, hstack]
    norm_num [Frame.pop_int, Frame.pop, hos]
  have hiff : s.execute_instruction_explicit opcodes.IDIV = .error .divisionByZero ↔ v2 = 0 := by
    constructor
    · intro he
      by_contra hv
      rw [hstep, if_neg hv] at he
      have hrd : rustDivI32 v1 v2 ≠ .error .divisionByZero := by
        unfold rustDivI32
        split <;> simp
      rcases hr : rustDivI32 v1 v2 with e | r
      · rw [hr] at he
        simp only [Except.error.injEq] at he
        exact hrd (he ▸ hr)
      · rw [hr] at he
        exact Except.noConfusion he
    · intro hv
      rw [hstep, if_pos hv]
  refine ⟨hiff, fun hv => ?_⟩
  exact runLoop_cons_error fuel s f frest opcodes.IDIV .divisionByZero hstack hcode
    (hiff.mpr hv)

/-- Witness for C5: dividing 1 by 0 fails with the division-by-zero error
at the step and through the loop. -/
theorem idiv_fails_iff_divisor_zero_witness :
    (sampleState [sampleFrame [.IntV 0, .IntV 1]
        [opcodes.IDIV] 2 0 none]).execute_instruction_explicit opcodes.IDIV =
      .error .divisionByZero ∧
    Interpreter.runLoop 1 (sampleState [sampleFrame [.IntV 0, .IntV 1] [opcodes.IDIV] 2 0 none]) =
      some (.error .divisionByZero) := by
  have h := idiv_fails_iff_divisor_zero
    (sampleState [sampleFrame [.IntV 0, .IntV 1] [opcodes.IDIV] 2 0 none])
    (sampleFrame [.IntV 0, .IntV 1] [opcodes.IDIV] 2 0 none) [] 1 0 [] 0 rfl rfl rfl
  exact ⟨h.1.mpr rfl, h.2 rfl⟩

/-- C6 counterexample: `goto` with operand bytes 0x00 0x03 at PC 0 sets
the PC to 3, the address after the three-byte instruction, not back to
the goto's own address 0, so it does not loop in place. -/
theorem goto_plus3_does_not_loop :
    Except.map (fun p => p.2.thread.pc)
      ((sampleState [sampleFrame [] [opcodes.GOTO, 0x00, 0x03, opcodes.NOP]
        0 0 none]).execute_instruction_explicit opcodes.GOTO) = .ok 3 ∧
    (3 : Nat) ≠ 0 :=
  ⟨rfl, by decide⟩

/-- Branch-target arithmetic for in-range nonnegative offsets: the cast
chain `(pc as i32 + offset as i32) as usize` is plain addition. -/
theorem branchTarget_nonneg (pc : Nat) (off : Int) (hoff : 0 ≤ off)
    (hb : (pc : Int) + off < 2 ^ 31) :
    branchTarget pc off = .ok ((pc : Int) + off).toNat := by
  rw [show ((2 : Int) ^ 31) = 2147483648 from by norm_num] at hb
  have hpcI : (pc : Int) < 2147483648 := by omega
  have hpc : pc < 2147483648 := by exact_mod_cast hpcI
  have hm : pc % 2 ^ 32 = pc := Nat.mod_eq_of_lt (by omega)
  have h1 : usizeAsI32 pc = (pc : Int) := by
    unfold usizeAsI32
    simp only [hm]
    rw [if_pos (show pc < 2 ^ 31 by omega)]
  have hfits : fitsI32 ((pc : Int) + off) = true := by
    unfold fitsI32 i32min i32max
    simp only [Bool.and_eq_true, decide_eq_true_eq]
    norm_num
    omega
  have h2 : rustAddI32 (pc : Int) off = .ok ((pc : Int) + off) := by
    unfold rustAddI32
    rw [if_pos hfits]
  have hmod : ((pc : Int) + off) % (2 : Int) ^ 64 = (pc : Int) + off := by
    apply Int.emod_eq_of_lt (by omega)
    norm_num
    omega
  have h3 : i32AsUsize ((pc : Int) + off) = ((pc : Int) + off).toNat := by
    unfold i32AsUsize
    rw [hmod]
  unfold branchTarget
  rw [h1, h2]
  show Except.ok (i32AsUsize ((pc : Int) + off)) = .ok ((pc : Int) + off).toNat
  rw [h3]

/-- C6 amended: the branch target of `goto` is PC plus the signed 16-bit
offset measured from the opcode's own PC; hence `goto 0x0000` loops in
place, while `goto 0x0003` on the three-byte instruction transfers
control to the following instruction at PC + 3. -/
theorem goto_target_is_pc_plus_offset (s : Interpreter) (f : Frame) (frest : List Frame)
    (hstack : s.thread.stack = f :: frest)
    (hbound : s.thread.pc + 3 < 2 ^ 31)
    (hb1 : f.code.get? (s.thread.pc + 1) = some 0) :
    (f.code.get? (s.thread.pc + 2) = some 0 →
      s.execute_instruction_explicit opcodes.GOTO =
        .ok (.Continue, { s with thread := { s.thread with pc := s.thread.pc } })) ∧
    (f.code.get? (s.thread.pc + 2) = some 3 →
      s.execute_instruction_explicit opcodes.GOTO =
        .ok (.Continue, { s with thread := { s.thread with pc := s.thread.pc + 3 } })) := by
  simp only [List.get?_eq_getElem?] at hb1
  constructor
  · intro hb2
    simp only [List.get?_eq_getElem?] at hb2
    have ht := branchTarget_nonneg s.thread.pc 0 le_rfl (by omega)
    simp only [Interpreter.execute_instruction_explicit, hstack]
    norm_num [idxByte, hb1, hb2, i16OfBytes, ht]
  · intro hb2
    simp only [List.get?_eq_getElem?] at hb2
    have ht := branchTarget_nonneg s.thread.pc 3 (by omega) (by omega)
    have htn : ((s.thread.pc : Int) + 3).toNat = s.thread.pc + 3 := by omega
    simp only [Interpreter.execute_instruction_explicit, hstack]
    norm_num [idxByte, hb1, hb2, i16OfBytes, ht, htn]

/-- Witness for the C6 amended theorem: at PC 0, offset 0x0000 stays at
PC 0 and offset 0x0003 lands at PC 3. -/
theorem goto_target_is_pc_plus_offset_witness :
    Except.map (fun p => p.2.thread.pc)
      ((sampleState [sampleFrame [] [opcodes.GOTO, 0x00, 0x00, opcodes.NOP]
        0 0 none]).execute_instruction_explicit opcodes.GOTO) = .ok 0 ∧
    Except.map (fun p => p.2.thread.pc)
      ((sampleState [sampleFrame [] [opcodes.GOTO, 0x00, 0x03, opcodes.NOP]
        0 0 none]).execute_instruction_explicit opcodes.GOTO) = .ok 3 := by
  have h0 := (goto_target_is_pc_plus_offset
    (sampleState [sampleFrame [] [opcodes.GOTO, 0x00, 0x00, opcodes.NOP] 0 0 none])
    (sampleFrame [] [opcodes.GOTO, 0x00, 0x00, opcodes.NOP] 0 0 none) [] rfl
    (by decide) rfl).1 rfl
  have h3 := (goto_target_is_pc_plus_offset
    (sampleState [sampleFrame [] [opcodes.GOTO, 0x00, 0x03, opcodes.NOP] 0 0 none])
    (sampleFrame [] [opcodes.GOTO, 0x00, 0x03, opcodes.NOP] 0 0 none) [] rfl
    (by decide) rfl).2 rfl
  rw [h0, h3]
  exact ⟨rfl, rfl⟩

/-- C9: the dispatch loop bounds-checks only the opcode byte, so a
multi-byte instruction (bipush, sipush, goto, invokestatic) whose opcode
is the last code byte reads its operand bytes through unguarded indexing:
execution aborts with the indexing panic, never with the PcOutOfBounds
error. -/
theorem truncated_operand_panics_unchecked (s : Interpreter) (f : Frame) (frest : List Frame)
    (op fuel : Nat)
    (hstack : s.thread.stack = f :: frest)
    (hop : f.code.get? s.thread.pc = some op)
    (hlast : f.code.length = s.thread.pc + 1)
    (hops : op = opcodes.BIPUSH ∨ op = opcodes.SIPUSH ∨ op = opcodes.GOTO ∨
      op = opcodes.INVOKESTATIC) :
    s.execute_instruction_explicit op = .error .panicIndexOutOfBounds ∧
    Interpreter.runLoop (fuel + 1) s = some (.error .panicIndexOutOfBounds) ∧
    ∀ a b, Interpreter.runLoop (fuel + 1) s ≠ some (.error (.pcOutOfBounds a b)) := by
  have hnone : f.code.get? (s.thread.pc + 1) = none := List.get?_eq_none.mpr (by omega)
  simp only [List.get?_eq_getElem?] at hnone
  have hstep : s.execute_instruction_explicit op = .error .panicIndexOutOfBounds := by
    rcases hops with rfl | rfl | rfl | rfl <;>
      · simp only [Interpreter.execute_instruction_explicit, hstack]
        norm_num [idxByte, hnone]
  refine ⟨hstep, runLoop_cons_error fuel s f frest op _ hstack hop hstep, ?_⟩
  intro a b
  rw [runLoop_cons_error fuel s f frest op _ hstack hop hstep]
  simp

/-- Witness for C9: a code array holding only the `bipush` opcode panics
on the missing operand byte instead of raising PcOutOfBounds. -/
theorem truncated_operand_panics_unchecked_witness :
    (sampleState [sampleFrame [] [opcodes.BIPUSH]
        1 0 none]).execute_instruction_explicit opcodes.BIPUSH =
      .error .panicIndexOutOfBounds ∧
    Interpreter.runLoop 1 (sampleState [sampleFrame [] [opcodes.BIPUSH] 1 0 none]) =
      some (.error .panicIndexOutOfBounds) := by
  have h := truncated_operand_panics_unchecked
    (sampleState [sampleFrame [] [opcodes.BIPUSH] 1 0 none])
    (sampleFrame [] [opcodes.BIPUSH] 1 0 none) [] opcodes.BIPUSH 0 rfl rfl rfl (Or.inl rfl)
  exact ⟨h.1, h.2.1⟩

/-- C10: `Heap::free` succeeds on any in-bounds index, also when the slot
is already empty, pushing the index onto the free list again; after
freeing the same index twice with no intervening allocation, the next two
allocations both return that index, so two live objects share one
handle. -/
theorem double_free_allocates_same_handle_twice (h : Heap) (k : Nat) (cn1 cn2 : String)
    (hk : k < h.objects.length) :
    ∃ h1 h2, h.free k = .ok h1 ∧ h1.free k = .ok h2 ∧
      h2.free_list = k :: k :: h.free_list ∧
      (h2.allocate cn1).1 = k ∧ ((h2.allocate cn1).2.allocate cn2).1 = k := by
  have hle : ¬ h.objects.length ≤ k := Nat.not_le.mpr hk
  refine ⟨{ objects := h.objects.set k none, free_list := k :: h.free_list },
    { objects := (h.objects.set k none).set k none, free_list := k :: k :: h.free_list },
    ?_, ?_, rfl, rfl, rfl⟩
  · simp [Heap.free, hle]
  · simp [Heap.free, List.length_set, hle]

/-- Witness for C10 on a one-slot heap: both reallocations return
handle 0. -/
theorem double_free_allocates_same_handle_twice_witness :
    ∃ h1 h2,
      Heap.free { objects := [some { class_name := "A", fields := [] }], free_list := [] } 0 =
        .ok h1 ∧
      h1.free 0 = .ok h2 ∧
      h2.free_list = 0 :: 0 :: [] ∧
      (h2.allocate "B").1 = 0 ∧ ((h2.allocate "B").2.allocate "C").1 = 0 :=
  double_free_allocates_same_handle_twice
    { objects := [some { class_name := "A", fields := [] }], free_list := [] } 0 "B" "C"
    (by decide)

/-- C1: `ireturn` pops the return value; with a caller frame below and a
saved return address, the returning frame is discarded, the PC becomes
the saved address and the caller's operand stack deepens by exactly one
with the value on top; with a single frame the dispatch loop terminates
returning that value. -/
theorem ireturn_returns_to_caller (s : Interpreter) (v : JvmValue) (fuel : Nat) :
    (∀ f g frest tl ra, s.thread.stack = f :: g :: frest →
      f.operand_stack = v :: tl → f.return_address = some ra →
      s.execute_instruction_explicit opcodes.IRETURN =
        .ok (.Continue, { s with thread := { stack := g.push v :: frest, pc := ra } }) ∧
      (g.push v).stack_size = g.stack_size + 1 ∧
      (g.push v).operand_stack.head? = some v) ∧
    (∀ f tl, s.thread.stack = [f] → f.operand_stack = v :: tl →
      f.code.get? s.thread.pc = some opcodes.IRETURN →
      s.execute_instruction_explicit opcodes.IRETURN =
        .ok (.Return (some v), { s with thread := { stack := [], pc := s.thread.pc } }) ∧
      Interpreter.runLoop (fuel + 1) s = some (.ok (some v))) := by
  constructor
  · intro f g frest tl ra hstack hos hra
    refine ⟨?_, rfl, rfl⟩
    simp only [Interpreter.execute_instruction_explicit, hstack]
    norm_num [Frame.pop, hos, hra]
  · intro f tl hstack hos hcode
    have hstep : s.execute_instruction_explicit opcodes.IRETURN =
        .ok (.Return (some v), { s with thread := { stack := [], pc := s.thread.pc } }) := by
      simp only [Interpreter.execute_instruction_explicit, hstack]
      norm_num [Frame.pop, hos]
    exact ⟨hstep, runLoop_cons_return fuel s _ f [] opcodes.IRETURN (some v) hstack hcode hstep⟩

/-- Witness for C1: returning Int 7 into a two-frame stack restores PC 5
and pushes onto the caller; with one frame the loop returns Int 7. -/
theorem ireturn_returns_to_caller_witness :
    (sampleState [calleeFrame, callerFrame]).execute_instruction_explicit opcodes.IRETURN =
      .ok (.Continue,
        { sampleState [calleeFrame, callerFrame] with
          thread := { stack := callerFrame.push (.IntV 7) :: [], pc := 5 } }) ∧
    Interpreter.runLoop 1 (sampleState [calleeFrame]) = some (.ok (some (.IntV 7))) := by
  have h1 := (ireturn_returns_to_caller (sampleState [calleeFrame, callerFrame]) (.IntV 7) 0).1
    calleeFrame callerFrame [] [] 5 rfl rfl rfl
  have h2 := (ireturn_returns_to_caller (sampleState [calleeFrame]) (.IntV 7) 0).2
    calleeFrame [] rfl rfl rfl
  exact ⟨h1.1, h2.2⟩

/-! Descriptor grammar for the argument-count claims: one parameter type
of the JVM descriptor grammar, restricted to non-nested arrays. -/

/-- One method-descriptor parameter: a primitive type character, a class
type `L name ;`, a single-level primitive array `[ c`, or a single-level
class array `[ L name ;`. -/
inductive ParamTy where
  | prim (c : Char)
  | cls (name : String)
  | arrPrim (c : Char)
  | arrCls (name : String)
deriving DecidableEq, Repr

/-- The eight primitive descriptor characters. -/
def primChars : List Char := ['B', 'C', 'S', 'I', 'F', 'Z', 'J', 'D']

/-- Well-formedness of a parameter: primitive characters come from the
descriptor alphabet and class names contain no semicolon. -/
def ParamTy.wf : ParamTy → Prop
  | .prim c => c ∈ primChars
  | .cls name => ';' ∉ name.data
  | .arrPrim c => c ∈ primChars
  | .arrCls name => ';' ∉ name.data

instance (p : ParamTy) : Decidable p.wf := by
  cases p
  · exact inferInstanceAs (Decidable (_ ∈ primChars))
  · exact inferInstanceAs (Decidable (_ ∉ _))
  · exact inferInstanceAs (Decidable (_ ∈ primChars))
  · exact inferInstanceAs (Decidable (_ ∉ _))

/-- Character rendering of one parameter type. -/
def ParamTy.render : ParamTy → List Char
  | .prim c => [c]
  | .cls name => 'L' :: name.data ++ [';']
  | .arrPrim c => ['[', c]
  | .arrCls name => '[' :: 'L' :: name.data ++ [';']

/-- Character rendering of a parameter list. -/
def renderParams : List ParamTy → List Char
  | [] => []
  | p :: ps => p.render ++ renderParams ps

/-- The descriptor `( params ) ret` of a parameter list. -/
def descriptorOf (ps : List ParamTy) (ret : String) : String :=
  ⟨'(' :: (renderParams ps ++ ')' :: ret.data)⟩

theorem skipToSemiThen_through (l : List Char) :
    ∀ (rest : List Char) (k : Nat), ';' ∉ l →
      skipToSemiThen (l ++ ';' :: rest) k = parseArgCountAux rest k := by
  induction l with
  | nil => intro rest k _; simp [skipToSemiThen]
  | cons c cs ih =>
    intro rest k h
    rw [List.mem_cons, not_or] at h
    have hc : ¬ c = ';' := fun hcc => h.1 (hcc ▸ rfl)
    simp only [List.cons_append, skipToSemiThen, if_neg hc]
    exact ih rest k h.2

theorem parseArgCountAux_prim (c : Char) (hc : c ∈ primChars) (rest : List Char) (k : Nat) :
    parseArgCountAux (c :: rest) k = parseArgCountAux rest (k + 1) := by
  fin_cases hc <;> (conv_lhs => rw [parseArgCountAux.eq_def]) <;> simp [Char.reduceEq]

theorem parseArgCountAux_cls (name : List Char) (h : ';' ∉ name) (rest : List Char) (k : Nat) :
    parseArgCountAux ('L' :: (name ++ ';' :: rest)) k = parseArgCountAux rest (k + 1) := by
  have hL : parseArgCountAux ('L' :: (name ++ ';' :: rest)) k =
      skipToSemiThen (name ++ ';' :: rest) (k + 1) := by
    conv_lhs => rw [parseArgCountAux.eq_def]
    simp [Char.reduceEq]
  rw [hL, skipToSemiThen_through name rest (k + 1) h]

theorem parseArgCountAux_arrPrim (c : Char) (hc : c ∈ primChars) (rest : List Char) (k : Nat) :
    parseArgCountAux ('[' :: c :: rest) k = parseArgCountAux rest (k + 1) := by
  fin_cases hc <;> (conv_lhs => rw [parseArgCountAux.eq_def]) <;> simp [Char.reduceEq]

theorem parseArgCountAux_arrCls (name : List Char) (h : ';' ∉ name) (rest : List Char)
    (k : Nat) :
    parseArgCountAux ('[' :: 'L' :: (name ++ ';' :: rest)) k = parseArgCountAux rest (k + 1) := by
  have hL : parseArgCountAux ('[' :: 'L' :: (name ++ ';' :: rest)) k =
      skipToSemiThen (name ++ ';' :: rest) (k + 1) := by
    conv_lhs => rw [parseArgCountAux.eq_def]
    simp [Char.reduceEq]
  rw [hL, skipToSemiThen_through name rest (k + 1) h]

theorem parseArgCountAux_params (ps : List ParamTy) :
    ∀ (k : Nat) (ret : List Char), (∀ p ∈ ps, p.wf) →
      parseArgCountAux (renderParams ps ++ ')' :: ret) k = k + ps.length := by
  induction ps with
  | nil =>
    intro k ret _
    show parseArgCountAux (renderParams [] ++ ')' :: ret) k = k + 0
    rw [show renderParams [] ++ ')' :: ret = ')' :: ret from rfl]
    conv_lhs => rw [parseArgCountAux.eq_def]
    simp [Char.reduceEq]
  | cons p ps ih =>
    intro k ret h
    have hp : p.wf := h p (List.mem_cons_self p ps)
    have hps : ∀ q ∈ ps, q.wf := fun q hq => h q (List.mem_cons_of_mem p hq)
    have step : parseArgCountAux (ParamTy.render p ++ (renderParams ps ++ ')' :: ret)) k =
        parseArgCountAux (renderParams ps ++ ')' :: ret) (k + 1) := by
      cases p with
      | prim c => exact parseArgCountAux_prim c hp _ k
      | cls name =>
        have : ParamTy.render (.cls name) ++ (renderParams ps ++ ')' :: ret) =
            'L' :: (name.data ++ ';' :: (renderParams ps ++ ')' :: ret)) := by
          simp [ParamTy.render]
        rw [this]
        exact parseArgCountAux_cls name.data hp _ k
      | arrPrim c => exact parseArgCountAux_arrPrim c hp _ k
      | arrCls name =>
        have : ParamTy.render (.arrCls name) ++ (renderParams ps ++ ')' :: ret) =
            '[' :: 'L' :: (name.data ++ ';' :: (renderParams ps ++ ')' :: ret)) := by
          simp [ParamTy.render]
        rw [this]
        exact parseArgCountAux_arrCls name.data hp _ k
    have hassoc : renderParams (p :: ps) ++ ')' :: ret =
        ParamTy.render p ++ (renderParams ps ++ ')' :: ret) := by
      simp [renderParams]
    rw [hassoc, step, ih (k + 1) ret hps]
    simp only [List.length_cons]
    omega

/-- C7 counterexample: the nested-array descriptor `([[I)V` holds exactly
one parameter type, yet the scanner counts each extra `[` pair once more
and returns 2. -/
theorem nested_array_param_counted_twice :
    Interpreter.parse_arg_count "([[I)V" = 2 ∧ Interpreter.parse_arg_count "([[I)V" ≠ 1 :=
  ⟨by decide, by decide⟩

/-- C7 amended: for every well-formed descriptor whose parameters contain
no nested array, the argument-count scanner returns exactly the number of
parameter types: each of B C S I F Z J D counts one, each `L...;` counts
one, and each single-level array (`[` before a primitive or class element)
counts one; nested arrays such as `[[I` are miscounted (see the
counterexample). -/
theorem parse_arg_count_nonnested (ps : List ParamTy) (ret : String)
    (h : ∀ p ∈ ps, p.wf) :
    Interpreter.parse_arg_count (descriptorOf ps ret) = ps.length := by
  have hdata : (descriptorOf ps ret).data.drop 1 = renderParams ps ++ ')' :: ret.data := rfl
  rw [Interpreter.parse_arg_count, hdata, parseArgCountAux_params ps 0 ret.data h]
  omega

/-- Witness for the C7 amended theorem: the five-parameter descriptor
`(ILjava/lang/String;[I[Ljava/lang/Object;D)V` counts 5. -/
theorem parse_arg_count_nonnested_witness :
    Interpreter.parse_arg_count
      (descriptorOf [.prim 'I', .cls "java/lang/String", .arrPrim 'I',
        .arrCls "java/lang/Object", .prim 'D'] "V") = 5 :=
  parse_arg_count_nonnested
    [.prim 'I', .cls "java/lang/String", .arrPrim 'I', .arrCls "java/lang/Object", .prim 'D']
    "V" (by decide)

/-- C8: `Metaspace::load_class` is idempotent: when the class file's
internal name is already present, the call returns success with the
metaspace completely unchanged (same class set, no mutation of the loaded
class's metadata, runtime constant pool or static fields); consequently a
second `load_class` of the same file after a successful one changes
nothing. -/
theorem load_class_idempotent (ms : Metaspace) (cf : ClassFile) :
    (∀ name, cf.get_class_name = .ok name → ms.is_class_loaded name = true →
      ms.load_class cf = .ok ms) ∧
    (∀ ms', ms.load_class cf = .ok ms' → ms'.load_class cf = .ok ms') := by
  have hdirect : ∀ (m2 : Metaspace) name, cf.get_class_name = .ok name →
      m2.is_class_loaded name = true → m2.load_class cf = .ok m2 := by
    intro m2 name hn hl
    simp only [Metaspace.is_class_loaded] at hl
    simp only [Metaspace.load_class, hn]
    simp [hl]
  refine ⟨fun name hn hl => hdirect ms name hn hl, ?_⟩
  intro ms' h
  cases hcn : cf.get_class_name with
  | error e =>
    simp only [Metaspace.load_class, hcn] at h
    exact Except.noConfusion h
  | ok name =>
    by_cases hl : (lookupA ms.classes name).isSome = true
    · have hself : ms.load_class cf = .ok ms :=
        hdirect ms name hcn (by simpa [Metaspace.is_class_loaded] using hl)
      rw [hself] at h
      simp only [Except.ok.injEq] at h
      subst h
      exact hself
    · simp only [Metaspace.load_class, hcn] at h
      rw [if_neg hl] at h
      split at h
      · exact Except.noConfusion h
      · split at h
        · exact Except.noConfusion h
        · split at h
          · exact Except.noConfusion h
          · split at h
            · exact Except.noConfusion h
            · simp only [Except.ok.injEq] at h
              subst h
              simp only [Metaspace.load_class, hcn]
              simp [lookupA_insertA_self]

/-- Minimal loaded-class fixture named Foo. -/
def fooMeta : ClassMetadata :=
  { name := "Foo"
    super_class := none
    interfaces := []
    access_flags := 0
    constant_pool := []
    runtime_pool := RuntimeConstantPool.new
    methods := []
    fields := []
    static_fields := []
    state := .Loaded }

/-- Class-file fixture whose internal name is Foo. -/
def fooClassFile : ClassFile :=
  { magic := 0xCAFEBABE
    minor_version := 0
    major_version := 52
    constant_pool := { entries := [none, some (.Utf8 "Foo"), some (.Class 1)] }
    access_flags := 0x21
    this_class := 2
    super_class := 0
    interfaces := []
    fields := []
    methods := []
    attributes := [] }

/-- Witness for C8: loading Foo's class file into a metaspace that
already holds Foo succeeds and returns the metaspace unchanged. -/
theorem load_class_idempotent_witness :
    Metaspace.load_class { classes := [("Foo", fooMeta)] } fooClassFile =
      .ok { classes := [("Foo", fooMeta)] } :=
  (load_class_idempotent { classes := [("Foo", fooMeta)] } fooClassFile).1 "Foo" rfl rfl

/-- C2: `invokestatic` on a resolved non-system target: when the target
class is loaded and holds the keyed method, exactly arg_count(descriptor)
values are popped off the caller's operand stack, a new frame carrying
return_address = PC + 3 receives the popped arguments in its locals from
index 0 in reverse pop order (local i holds the i-th pushed argument,
remaining locals zeroed), the frame is pushed and the PC becomes 0; when
the target class is not loaded the instruction fails with the
class-not-loaded error, and when the method key is absent it fails with
the member-not-found error. -/
theorem invokestatic_contract
    (s : Interpreter) (f : Frame) (frest : List Frame) (pc b1 b2 : Nat)
    (cm cm2 : ClassMetadata) (mref : ResolvedMethodRef)
    (hstack : s.thread.stack = f :: frest)
    (hpc : s.thread.pc = pc)
    (hb1 : f.code.get? (pc + 1) = some b1)
    (hb2 : f.code.get? (pc + 2) = some b2)
    (hcm : lookupA s.metaspace.classes f.class_name = some cm)
    (hres : cm.resolve_method_ref (u16OfBytes b1 b2) = .ok (mref, cm2))
    (hsys : mref.class_name.startsWith "java/" = false) :
    (∀ tc m vs tl,
      lookupA (s.metaspace.put_class f.class_name cm2).classes mref.class_name = some tc →
      lookupA tc.methods (mref.method_name ++ ":" ++ mref.descriptor) = some m →
      f.operand_stack = vs ++ tl →
      vs.length = Interpreter.parse_arg_count m.descriptor →
      vs.length ≤ m.max_locals →
      ∃ nf,
        s.execute_instruction_explicit opcodes.INVOKESTATIC =
          .ok (.Continue,
            { s with
              metaspace := s.metaspace.put_class f.class_name cm2
              thread := { stack := nf :: { f with operand_stack := tl } :: frest, pc := 0 } }) ∧
        nf.return_address = some (pc + 3) ∧
        nf.class_name = mref.class_name ∧
        nf.code = m.code ∧
        nf.max_stack = m.max_stack ∧
        nf.max_locals = m.max_locals ∧
        nf.operand_stack = [] ∧
        nf.local_vars.length = m.max_locals ∧
        (∀ i, i < vs.length → nf.local_vars.get? i = vs.reverse.get? i)) ∧
    (lookupA (s.metaspace.put_class f.class_name cm2).classes mref.class_name = none →
      s.execute_instruction_explicit opcodes.INVOKESTATIC =
        .error (.classNotLoaded mref.class_name)) ∧
    (∀ tc,
      lookupA (s.metaspace.put_class f.class_name cm2).classes mref.class_name = some tc →
      lookupA tc.methods (mref.method_name ++ ":" ++ mref.descriptor) = none →
      s.execute_instruction_explicit opcodes.INVOKESTATIC =
        .error (.methodNotFound mref.class_name (mref.method_name ++ ":" ++ mref.descriptor))) := by
  subst hpc
  simp only [List.get?_eq_getElem?] at hb1 hb2
  refine ⟨?_, ?_, ?_⟩
  · intro tc m vs tl htc hm hos hn hloc
    have hload : (s.metaspace.put_class f.class_name cm2).is_class_loaded mref.class_name
        = true := by
      simp [Metaspace.is_class_loaded, htc]
    have hlocs : 0 + vs.reverse.length ≤
        (Frame.new_with_context m.max_locals m.max_stack mref.class_name m.code
          (some (s.thread.pc + 3))).local_vars.length := by
      simp [Frame.new_with_context, List.length_reverse]
      omega
    obtain ⟨nf, hrun, hL, hin, hout, hosn, hcn, hra, hcode, hms, hml⟩ :=
      setLocalsFrom_ok vs.reverse 0
        (Frame.new_with_context m.max_locals m.max_stack mref.class_name m.code
          (some (s.thread.pc + 3))) hlocs
    refine ⟨nf, ?_, ?_, ?_, ?_, ?_, ?_, ?_, ?_, ?_⟩
    · simp only [Interpreter.execute_instruction_explicit, hstack]
      norm_num [idxByte, hb1, hb2, Metaspace.get_class, hcm, hres, hsys, hload, htc, hm]
      rw [← hn, popN_append vs f tl hos]
      simp only [hrun]
    · rw [hra]; rfl
    · rw [hcn]; rfl
    · rw [hcode]; rfl
    · rw [hms]; rfl
    · rw [hml]; rfl
    · rw [hosn]; rfl
    · rw [hL]; simp [Frame.new_with_context]
    · intro i hi
      have hg := hin i (by simpa using hi)
      simpa using hg
  · intro htcn
    have hload : (s.metaspace.put_class f.class_name cm2).is_class_loaded mref.class_name
        = false := by
      simp [Metaspace.is_class_loaded, htcn]
    simp only [Interpreter.execute_instruction_explicit, hstack]
    norm_num [idxByte, hb1, hb2, Metaspace.get_class, hcm, hres, hsys, hload]
  · intro tc htc hmn
    have hload : (s.metaspace.put_class f.class_name cm2).is_class_loaded mref.class_name
        = true := by
      simp [Metaspace.is_class_loaded, htc]
    simp only [Interpreter.execute_instruction_explicit, hstack]
    norm_num [idxByte, hb1, hb2, Metaspace.get_class, hcm, hres, hsys, hload, htc, hmn]

/-- The resolved reference produced for constant-pool index 6 of
`mainMeta`. -/
def sumRef : ResolvedMethodRef :=
  { class_name := "Calc", method_name := "sum", descriptor := "(II)I" }

/-- The method metadata stored for `sum:(II)I` in `calcMeta`. -/
def sumMM : MethodMetadata :=
  { name := "sum", descriptor := "(II)I", access_flags := 9, max_stack := 2, max_locals := 2,
    code := [0x1a, 0x1b, 0x60, 0xac], is_static := true, is_native := false,
    is_abstract := false }

/-- Caller frame fixture about to execute `invokestatic #6` with
arguments 10 (pushed first) and 20 on the operand stack. -/
def invokeCallerFrame : Frame :=
  sampleFrame [.IntV 20, .IntV 10] [opcodes.INVOKESTATIC, 0x00, 0x06, opcodes.IRETURN] 2 0 none

/-- Interpreter state fixture for the invokestatic witness: Main and Calc
loaded, caller frame on top. -/
def invokeState : Interpreter :=
  { heap := Heap.new
    thread := { stack := [invokeCallerFrame], pc := 0 }
    metaspace := { classes := [("Main", mainMeta), ("Calc", calcMeta)] } }

/-- Witness for C2: invoking `Calc.sum(II)I` with arguments 10 and 20
pops both, builds the callee frame with locals 10 and 20, return address
3, and zeroes the PC. -/
theorem invokestatic_contract_witness :
    ∃ nf,
      invokeState.execute_instruction_explicit opcodes.INVOKESTATIC =
        .ok (.Continue,
          { invokeState with
            metaspace := invokeState.metaspace.put_class "Main" mainMetaResolved
            thread :=
              { stack := nf :: { invokeCallerFrame with operand_stack := [] } :: [], pc := 0 } }) ∧
      nf.return_address = some 3 ∧
      nf.class_name = "Calc" ∧
      nf.code = [0x1a, 0x1b, 0x60, 0xac] ∧
      nf.max_stack = 2 ∧
      nf.max_locals = 2 ∧
      nf.operand_stack = [] ∧
      nf.local_vars.length = 2 ∧
      nf.local_vars.get? 0 = some (.IntV 10) ∧
      nf.local_vars.get? 1 = some (.IntV 20) := by
  obtain ⟨nf, hrun, hra, hcn, hcode, hms, hml, hosn, hL, hlocs⟩ :=
    (invokestatic_contract invokeState invokeCallerFrame [] 0 0x00 0x06 mainMeta
      mainMetaResolved sumRef rfl rfl rfl rfl rfl rfl (by decide)).1
      calcMeta sumMM [.IntV 20, .IntV 10] [] rfl rfl rfl (by decide) (by decide)
  exact ⟨nf, hrun, hra, hcn, hcode, hms, hml, hosn, hL,
    hlocs 0 (by decide), hlocs 1 (by decide)⟩

end RsJvm
